import Mathlib

/-!
Verification of the analysis-and-fix pipeline of the code-review agent.

The Python sources under `code_review_agent/` (analyzers, fixers, linters)
are shallowly embedded here: file content is a `List Char`, Python
`str.split('\n')` is `splitNl`, the `re` patterns used by the fixer are
embedded as small pattern programs interpreted by an executable
backtracking matcher with Python's leftmost-greedy semantics (all
repetitions in the embedded patterns range over single-character classes,
which that matcher supports exactly).  Character classes are modelled at
ASCII granularity, which covers every string the repository's rules
manipulate.
-/

set_option maxRecDepth 4000

namespace CodeReview

/-- Python `\w` (ASCII range): letters, digits and underscore. -/
def isPyWordChar (c : Char) : Bool :=
  ('a' ≤ c && c ≤ 'z') || ('A' ≤ c && c ≤ 'Z') || ('0' ≤ c && c ≤ '9') || (c == '_')

/-- Python `\s` (ASCII range): space, tab, newline, carriage return, form feed, vertical tab. -/
def isPySpace (c : Char) : Bool :=
  c == ' ' || c == '\t' || c == '\n' || c == '\r' || c == '\x0b' || c == '\x0c'

def isAsciiLower (c : Char) : Bool := 'a' ≤ c && c ≤ 'z'

def isAsciiUpper (c : Char) : Bool := 'A' ≤ c && c ≤ 'Z'

def isAsciiDigit (c : Char) : Bool := '0' ≤ c && c ≤ '9'

/-- Python `str.upper` on one ASCII character. -/
def pyUpperChar (c : Char) : Char :=
  if isAsciiLower c then Char.ofNat (c.toNat - 32) else c

/-- Python `str.lower` on one ASCII character. -/
def pyLowerChar (c : Char) : Char :=
  if isAsciiUpper c then Char.ofNat (c.toNat + 32) else c

def pyLowerList (s : List Char) : List Char := s.map pyLowerChar

/-- Python `str.capitalize`: first character uppercased, the rest lowercased. -/
def pyCapitalize (s : List Char) : List Char :=
  match s with
  | [] => []
  | c :: cs => pyUpperChar c :: cs.map pyLowerChar

/-- Python `content.split('\n')`. -/
def splitNl : List Char → List (List Char)
  | [] => [[]]
  | c :: cs =>
    if c = '\n' then [] :: splitNl cs
    else
      match splitNl cs with
      | [] => [[c]]
      | l :: ls => (c :: l) :: ls

/-- Python `'\n'.join(lines)`. -/
def joinNl : List (List Char) → List Char
  | [] => []
  | [l] => l
  | l :: ls => l ++ '\n' :: joinNl ls

theorem splitNl_ne_nil (cs : List Char) : splitNl cs ≠ [] := by
  induction cs with
  | nil => simp [splitNl]
  | cons c cs ih =>
    simp only [splitNl]
    split
    · simp
    · cases h : splitNl cs with
      | nil => simp
      | cons l ls => simp

theorem mem_splitNl_no_newline (cs : List Char) :
    ∀ l ∈ splitNl cs, '\n' ∉ l := by
  induction cs with
  | nil => intro l hl; simp [splitNl] at hl; simp [hl]
  | cons c cs ih =>
    intro l hl
    simp only [splitNl] at hl
    by_cases hc : c = '\n'
    · simp [hc] at hl
      rcases hl with h | h
      · simp [h]
      · exact ih l h
    · simp [hc] at hl
      cases h : splitNl cs with
      | nil => exact absurd h (splitNl_ne_nil cs)
      | cons m ms =>
        rw [h] at hl
        rcases List.mem_cons.mp hl with h1 | h1
        · subst h1
          intro hmem
          rcases List.mem_cons.mp hmem with h2 | h2
          · exact hc h2.symm
          · exact ih m (h ▸ List.mem_cons_self m ms) h2
        · exact ih l (h ▸ List.mem_cons_of_mem m h1)

theorem splitNl_of_no_newline (l : List Char) (hl : '\n' ∉ l) : splitNl l = [l] := by
  induction l with
  | nil => rfl
  | cons c cs ih =>
    simp only [List.mem_cons, not_or] at hl
    have hc : c ≠ '\n' := fun h => hl.1 h.symm
    simp only [splitNl, if_neg hc, ih hl.2]

theorem splitNl_append_newline (l cs : List Char) (hl : '\n' ∉ l) :
    splitNl (l ++ '\n' :: cs) = l :: splitNl cs := by
  induction l with
  | nil => simp [splitNl]
  | cons c l ih =>
    simp only [List.mem_cons, not_or] at hl
    have hc : c ≠ '\n' := fun h => hl.1 h.symm
    simp only [List.cons_append, splitNl, if_neg hc, ih hl.2]
    have := splitNl_ne_nil (l ++ '\n' :: cs)
    cases h : splitNl (l ++ '\n' :: cs) with
    | nil => exact absurd h this
    | cons m ms =>
      rw [ih hl.2] at h
      injection h with h1 h2
      rw [h1, h2]

/-- Splitting the join of newline-free lines recovers the lines. -/
theorem splitNl_joinNl (ls : List (List Char)) (hne : ls ≠ [])
    (h : ∀ l ∈ ls, '\n' ∉ l) : splitNl (joinNl ls) = ls := by
  induction ls with
  | nil => exact absurd rfl hne
  | cons l ls ih =>
    cases ls with
    | nil => exact splitNl_of_no_newline l (h l (List.mem_cons_self _ _))
    | cons m ms =>
      have hjoin : joinNl (l :: m :: ms) = l ++ '\n' :: joinNl (m :: ms) := rfl
      rw [hjoin, splitNl_append_newline l _ (h l (List.mem_cons_self _ _))]
      rw [ih (by simp) (fun x hx => h x (List.mem_cons_of_mem l hx))]

/-! ## A small matcher for the `re` patterns used by the fixer

Every repetition in the repository's patterns ranges over a
single-character class, so leftmost-greedy Python matching is realised by
enumerating, for each item, its possible end positions in preference
order (longest first) and sequencing the alternatives depth-first. -/

/-- A single-character pattern item: literal, class, and greedy
repetitions thereof (`*`, `+`, `?`). -/
inductive SItem where
  | lit : Char → SItem
  | cls : (Char → Bool) → SItem
  | star : (Char → Bool) → SItem
  | plus : (Char → Bool) → SItem
  | opt : (Char → Bool) → SItem

/-- A top-level pattern item: a simple item, a capture group of simple
items, a capture group over literal alternatives, or a word boundary. -/
inductive RItem where
  | one : SItem → RItem
  | grp : Nat → List SItem → RItem
  | alt : Nat → List (List Char) → RItem
  | wb : RItem

/-- Captured groups: group index paired with the captured characters. -/
abbrev Groups := List (Nat × List Char)

/-- Length of the maximal run of characters satisfying `p`. -/
def runLen (p : Char → Bool) : List Char → Nat
  | [] => 0
  | c :: cs => if p c then runLen p cs + 1 else 0

/-- Possible end positions (in preference order, greedy first) for one
simple item starting at `pos` in `s`. -/
def sItemEnds (s : List Char) (it : SItem) (pos : Nat) : List Nat :=
  match it with
  | .lit c =>
    match s.drop pos with
    | [] => []
    | d :: _ => if d = c then [pos + 1] else []
  | .cls p =>
    match s.drop pos with
    | [] => []
    | d :: _ => if p d then [pos + 1] else []
  | .star p =>
    let m := runLen p (s.drop pos)
    (List.range (m + 1)).reverse.map (fun k => pos + k)
  | .plus p =>
    let m := runLen p (s.drop pos)
    (List.range m).reverse.map (fun k => pos + k + 1)
  | .opt p =>
    match s.drop pos with
    | [] => [pos]
    | d :: _ => if p d then [pos + 1, pos] else [pos]

/-- All end positions reachable by a sequence of simple items, in
preference order. -/
def matchSimples (s : List Char) : List SItem → Nat → List Nat
  | [], pos => [pos]
  | it :: rest, pos => (sItemEnds s it pos).flatMap (fun q => matchSimples s rest q)

/-- Word/non-word boundary test at `pos`; `prev` supplies the character
immediately before position 0 (none at the start of the haystack). -/
def atBoundary (s : List Char) (prev : Option Char) (pos : Nat) : Bool :=
  let before :=
    if pos = 0 then
      match prev with
      | some c => isPyWordChar c
      | none => false
    else
      match s.drop (pos - 1) with
      | c :: _ => isPyWordChar c
      | [] => false
  let after :=
    match s.drop pos with
    | c :: _ => isPyWordChar c
    | [] => false
  before != after

/-- Characters of `s` from `a` (inclusive) to `b` (exclusive). -/
def extractSpan (s : List Char) (a b : Nat) : List Char := (s.drop a).take (b - a)

def listStartsAt (w : List Char) (s : List Char) (pos : Nat) : Bool :=
  w.isPrefixOf (s.drop pos)

/-- All (end position, captured groups) pairs for a top-level item
sequence anchored at `pos`, in Python's backtracking preference order. -/
def matchRItems (s : List Char) (prev : Option Char) : List RItem → Nat → List (Nat × Groups)
  | [], pos => [(pos, [])]
  | .one it :: rest, pos =>
    (sItemEnds s it pos).flatMap (fun q => matchRItems s prev rest q)
  | .grp i sub :: rest, pos =>
    (matchSimples s sub pos).flatMap (fun q =>
      (matchRItems s prev rest q).map (fun r => (r.1, (i, extractSpan s pos q) :: r.2)))
  | .alt i alts :: rest, pos =>
    alts.flatMap (fun w =>
      if listStartsAt w s pos then
        (matchRItems s prev rest (pos + w.length)).map (fun r => (r.1, (i, w) :: r.2))
      else [])
  | .wb :: rest, pos =>
    if atBoundary s prev pos then matchRItems s prev rest pos else []

/-- `re.search`: first start position (scanning left to right) at which
the pattern matches; returns (start, end, groups).  The fuel bounds the
number of start positions still to try. -/
def searchRec (s : List Char) (prev : Option Char) (items : List RItem)
    (pos : Nat) (fuel : Nat) : Option (Nat × Nat × Groups) :=
  match matchRItems s prev items pos with
  | (e, gs) :: _ => some (pos, e, gs)
  | [] =>
    match fuel with
    | 0 => none
    | fuel' + 1 =>
      if pos < s.length then searchRec s prev items (pos + 1) fuel' else none

def research (items : List RItem) (prev : Option Char) (s : List Char) :
    Option (Nat × Nat × Groups) :=
  searchRec s prev items 0 s.length

/-- Replacement-template item: a literal character or a group reference. -/
inductive TItem where
  | lit : Char → TItem
  | ref : Nat → TItem

def lookupGroup (gs : Groups) (i : Nat) : List Char :=
  match List.find? (fun g => g.1 == i) gs with
  | some g => g.2
  | none => []

def expandTmpl (tmpl : List TItem) (gs : Groups) : List Char :=
  tmpl.flatMap (fun t =>
    match t with
    | .lit c => [c]
    | .ref i => lookupGroup gs i)

def headCharOf (s : List Char) : Option Char :=
  match s with
  | [] => none
  | c :: _ => some c

/-- `re.sub(pattern, template, s)`: global leftmost replacement; an
empty-width match copies one character and advances (Python 3.7+). -/
def subAllRec (items : List RItem) (tmpl : List TItem) (prev : Option Char)
    (fuel : Nat) (s : List Char) : List Char :=
  match fuel with
  | 0 => s
  | fuel' + 1 =>
    match research items prev s with
    | none => s
    | some (st, en, gs) =>
      if st < en then
        s.take st ++ expandTmpl tmpl gs
          ++ subAllRec items tmpl (headCharOf (s.drop (en - 1))) fuel' (s.drop en)
      else
        match s.drop st with
        | [] => s.take st ++ expandTmpl tmpl gs
        | c :: rest =>
          s.take st ++ expandTmpl tmpl gs
            ++ c :: subAllRec items tmpl (some c) fuel' rest

def pySub (items : List RItem) (tmpl : List TItem) (s : List Char) : List Char :=
  subAllRec items tmpl none (s.length + 1) s

/-- Number of non-overlapping matches, as `len(re.findall(pattern, s))`. -/
def countRec (items : List RItem) (prev : Option Char) (fuel : Nat) (s : List Char) : Nat :=
  match fuel with
  | 0 => 0
  | fuel' + 1 =>
    match research items prev s with
    | none => 0
    | some (st, en, _) =>
      if st < en then
        1 + countRec items (headCharOf (s.drop (en - 1))) fuel' (s.drop en)
      else
        match s.drop st with
        | [] => 1
        | c :: rest => 1 + countRec items (some c) fuel' rest

def pyFindCount (items : List RItem) (s : List Char) : Nat :=
  countRec items none (s.length + 1) s

/-- `re.finditer`: the (start, end, groups) of each non-overlapping match,
left to right, with positions relative to the original string. -/
def finditerRec (items : List RItem) (prev : Option Char) (fuel : Nat)
    (s : List Char) (base : Nat) : List (Nat × Nat × Groups) :=
  match fuel with
  | 0 => []
  | fuel' + 1 =>
    match research items prev s with
    | none => []
    | some (st, en, gs) =>
      if st < en then
        (base + st, base + en, gs) ::
          finditerRec items (headCharOf (s.drop (en - 1))) fuel' (s.drop en) (base + en)
      else
        match s.drop st with
        | [] => [(base + st, base + en, gs)]
        | c :: rest =>
          (base + st, base + en, gs) ::
            finditerRec items (some c) fuel' rest (base + st + 1)

def pyFinditer (items : List RItem) (s : List Char) : List (Nat × Nat × Groups) :=
  finditerRec items none (s.length + 1) s 0

/-- Literal characters as a sequence of pattern items. -/
def litsL (l : List Char) : List RItem := l.map (fun c => RItem.one (SItem.lit c))

/-- Literal characters as a sequence of template items. -/
def tlitsL (l : List Char) : List TItem := l.map TItem.lit

/-- Python `sub in s` (substring containment). -/
def pyContains : List Char → List Char → Bool
  | s, sub =>
    if sub.isPrefixOf s then true
    else
      match s with
      | [] => false
      | _ :: rest => pyContains rest sub

/-- Python `s.replace(old, new)` for nonempty `old` (left to right,
non-overlapping). -/
def pyReplaceRec (old new : List Char) : Nat → List Char → List Char
  | 0, s => s
  | _ + 1, [] => []
  | fuel' + 1, c :: rest =>
    if old.isPrefixOf (c :: rest) then
      new ++ pyReplaceRec old new fuel' ((c :: rest).drop old.length)
    else
      c :: pyReplaceRec old new fuel' rest

def pyReplace (s old new : List Char) : List Char :=
  pyReplaceRec old new (s.length + 1) s

/-- Python `s.strip()` (ASCII whitespace). -/
def pyStrip (s : List Char) : List Char :=
  ((s.dropWhile isPySpace).reverse.dropWhile isPySpace).reverse

/-- Python `s.rstrip()` (ASCII whitespace). -/
def pyRstrip (s : List Char) : List Char :=
  (s.reverse.dropWhile isPySpace).reverse

/-! ## Issue data model (`analyzers/base_analyzer.py`) -/

/-- `CodeIssue` dataclass.  `line_number` is a `Nat`: every issue the
analyzers construct carries a 1-based positive line number. -/
structure CodeIssue where
  rule_id : String
  description : String
  severity : String
  line_number : Nat
  column : Nat := 0
  file_path : String := ""
  suggested_fix : Option String := none
  auto_fixable : Bool := false
  category : String := ""
deriving DecidableEq, Repr

/-- One entry of the `applied_fixes` list built by
`AutoFixer.fix_content`: the linter entry has no `rule_id`/`line_number`
key and the pattern entry has no `tool` key, modelled with `Option`. -/
structure AppliedFix where
  fixType : String
  rule_id : Option String
  description : String
  line_number : Option Nat
  tool : Option String
deriving DecidableEq, Repr

/-- The `applied_fixes` entry appended when the linter pass changed the
content. -/
def linterFixEntry : AppliedFix :=
  { fixType := "linter_fix", rule_id := none,
    description := "Applied automated linter fixes",
    line_number := none, tool := some "linter_manager" }

/-- The `applied_fixes` entry appended for a successful pattern fix. -/
def patternFixEntry (issue : CodeIssue) (description : String) : AppliedFix :=
  { fixType := "pattern_fix", rule_id := some issue.rule_id,
    description := description, line_number := some issue.line_number,
    tool := none }

/-- Result of one fix attempt (`{'success': ..., ...}` dictionaries in
`auto_fixer.py`): fixed content plus description, or a failure reason. -/
inductive FixAttempt where
  | success : List Char → String → FixAttempt
  | failure : String → FixAttempt
deriving DecidableEq, Repr

def FixAttempt.failed : FixAttempt → Bool
  | .success _ _ => false
  | .failure _ => true

/-! ## Custom linter auto-fix (`linters/custom_linter.py`) -/

def nonParen (c : Char) : Bool := !(c == ')')

def nonSemi (c : Char) : Bool := !(c == ';')

def nonCloseBrace (c : Char) : Bool := !(c == '}')

def isDotCls (c : Char) : Bool := !(c == '\n')

def isQuoteChar (c : Char) : Bool := c == '"' || c == '\''

def nonQuote (c : Char) : Bool := !(isQuoteChar c)

def nonDoubleQuote (c : Char) : Bool := !(c == '"')

def isNlChar (c : Char) : Bool := c == '\n'

def semiOrNl (c : Char) : Bool := c == ';' || c == '\n'

def isUpperUnderscore (c : Char) : Bool := isAsciiUpper c || c == '_'

def isUpperDigitUnderscore (c : Char) : Bool :=
  isAsciiUpper c || isAsciiDigit c || c == '_'

def isAlphaUnderscore (c : Char) : Bool :=
  isAsciiLower c || isAsciiUpper c || c == '_'

def isAlnumAscii (c : Char) : Bool :=
  isAsciiLower c || isAsciiUpper c || isAsciiDigit c

/-- `console\.log\s*\([^)]*\);\s*\n?` (rule `ts-no-console-log`). -/
def consoleLogPat : List RItem :=
  litsL "console.log".toList ++
  [.one (.star isPySpace), .one (.lit '('), .one (.star nonParen), .one (.lit ')'),
   .one (.lit ';'), .one (.star isPySpace), .one (.opt isNlChar)]

/-- `console\.(log|warn|error|info|debug)\s*\([^)]*\);\s*\n?`
(rule `pw-no-console-in-tests`). -/
def consoleAnyPat : List RItem :=
  litsL "console.".toList ++
  [.alt 1 ["log".toList, "warn".toList, "error".toList, "info".toList, "debug".toList],
   .one (.star isPySpace), .one (.lit '('), .one (.star nonParen), .one (.lit ')'),
   .one (.lit ';'), .one (.star isPySpace), .one (.opt isNlChar)]

/-- `CustomLinter.fix_content`: among the custom rules exactly
`ts-no-console-log` and `pw-no-console-in-tests` are auto-fixable and
`_apply_auto_fix` handles exactly those two, in rule-list order. -/
def custom_linter_fix (content : List Char) : List Char :=
  pySub consoleAnyPat [] (pySub consoleLogPat [] content)

/-- `LinterManager.fix_content`: the custom linter runs for every file;
the ESLint and Prettier passes shell out to external tools (out of scope
per the spec) and return the content unchanged when those tools are
unavailable, so they are modelled as the identity. -/
def linter_manager_fix (content : List Char) (_file_path : String) : List Char :=
  custom_linter_fix content

/-! ## Auto-fixer (`fixers/auto_fixer.py`) -/

/-- Data handed to a rule's condition predicate / replacement function:
the match's span in the searched line, the matched text (group 0) and the
captured groups. -/
structure MatchInfo where
  mstart : Nat
  mend : Nat
  whole : List Char
  groups : Groups

/-- A rule's replacement: a `re.sub` template applied to the line, or a
Python callable whose result becomes the whole new line. -/
inductive Repl where
  | tmpl : List TItem → Repl
  | fn : (MatchInfo → List Char) → Repl

structure PatternFix where
  pattern : List RItem
  repl : Repl
  condition : Option (MatchInfo → List Char → Bool)

/-- `\blet\s+(\w+)\s*=\s*([^;]+);` -/
def preferConstFixPat : List RItem :=
  [.wb] ++ litsL "let".toList ++
  [.one (.plus isPySpace), .grp 1 [.plus isPyWordChar], .one (.star isPySpace),
   .one (.lit '='), .one (.star isPySpace), .grp 2 [.plus nonSemi], .one (.lit ';')]

/-- `const \1 = \2;` -/
def preferConstTmpl : List TItem :=
  tlitsL "const ".toList ++ [.ref 1] ++ tlitsL " = ".toList ++ [.ref 2, .lit ';']

/-- `(\w+.*[^;])\s*\n` -/
def addSemicolonPat : List RItem :=
  [.grp 1 [.plus isPyWordChar, .star isDotCls, .cls nonSemi],
   .one (.star isPySpace), .one (.lit '\n')]

/-- `\1;\n` (raw string `r'\1;\n'` in the source). -/
def addSemicolonTmpl : List TItem := [.ref 1, .lit ';', .lit '\n']

/-- `\b([a-z]+)_([a-z]+)\b` -/
def namingCamelPat : List RItem :=
  [.wb, .grp 1 [.plus isAsciiLower], .one (.lit '_'), .grp 2 [.plus isAsciiLower], .wb]

/-- `\bconst\s+([a-z][a-zA-Z0-9]*)\s*=` -/
def namingConstantsPat : List RItem :=
  [.wb] ++ litsL "const".toList ++
  [.one (.plus isPySpace), .grp 1 [.cls isAsciiLower, .star isAlnumAscii],
   .one (.star isPySpace), .one (.lit '=')]

/-- `import\s+\{[^}]*\b(\w+)\b[^}]*\}\s+from\s+[^;]+;` -/
def removeUnusedImportPat : List RItem :=
  litsL "import".toList ++
  [.one (.plus isPySpace), .one (.lit '{'), .one (.star nonCloseBrace), .wb,
   .grp 1 [.plus isPyWordChar], .wb, .one (.star nonCloseBrace), .one (.lit '}'),
   .one (.plus isPySpace)] ++ litsL "from".toList ++
  [.one (.plus isPySpace), .one (.plus nonSemi), .one (.lit ';')]

/-- `page\.locator\(["\']([^"\']*#[^"\']*)["\']` -/
def stableLocatorsPat : List RItem :=
  litsL "page.locator(".toList ++
  [.one (.cls isQuoteChar), .grp 1 [.star nonQuote, .lit '#', .star nonQuote],
   .one (.cls isQuoteChar)]

/-- `page.getByTestId("\1")` -/
def stableLocatorsTmpl : List TItem :=
  tlitsL "page.getByTestId(\"".toList ++ [.ref 1] ++ tlitsL "\")".toList

/-- `assert\s*\(\s*await\s+([^)]+)\.isVisible\(\)\s*\)` -/
def properAssertionsPat : List RItem :=
  litsL "assert".toList ++ [.one (.star isPySpace), .one (.lit '('), .one (.star isPySpace)] ++
  litsL "await".toList ++ [.one (.plus isPySpace), .grp 1 [.plus nonParen]] ++
  litsL ".isVisible()".toList ++ [.one (.star isPySpace), .one (.lit ')')]

/-- `await expect(\1).toBeVisible()` -/
def properAssertionsTmpl : List TItem :=
  tlitsL "await expect(".toList ++ [.ref 1] ++ tlitsL ").toBeVisible()".toList

/-- `"([^"]*)"` -/
def prettierQuotesPat : List RItem :=
  [.one (.lit '"'), .grp 1 [.star nonDoubleQuote], .one (.lit '"')]

def prettierQuotesTmpl : List TItem := [.lit '\'', .ref 1, .lit '\'']

/-- `(\w+)\s*:\s*(\w+)` -/
def prettierSpacingPat : List RItem :=
  [.grp 1 [.plus isPyWordChar], .one (.star isPySpace), .one (.lit ':'),
   .one (.star isPySpace), .grp 2 [.plus isPyWordChar]]

/-- `\1: \2` -/
def prettierSpacingTmpl : List TItem := [.ref 1, .lit ':', .lit ' ', .ref 2]

/-- `(\w+)\s*=\s*(\w+)` (used by `_fix_spacing_issue`). -/
def assignSpacingPat : List RItem :=
  [.grp 1 [.plus isPyWordChar], .one (.star isPySpace), .one (.lit '='),
   .one (.star isPySpace), .grp 2 [.plus isPyWordChar]]

/-- `\1 = \2` -/
def assignSpacingTmpl : List TItem := [.ref 1, .lit ' ', .lit '=', .lit ' ', .ref 2]

/-- `(\w+)\s*\(\s*(\w+)` (used by `_fix_spacing_issue`). -/
def callSpacingPat : List RItem :=
  [.grp 1 [.plus isPyWordChar], .one (.star isPySpace), .one (.lit '('),
   .one (.star isPySpace), .grp 2 [.plus isPyWordChar]]

/-- `\1(\2` -/
def callSpacingTmpl : List TItem := [.ref 1, .lit '(', .ref 2]

/-- `AutoFixer._is_never_reassigned`: at most one occurrence of
`{var}\s*=` in the full content. -/
def isNeverReassigned (var : List Char) (content : List Char) : Bool :=
  decide (pyFindCount (litsL var ++ [.one (.star isPySpace), .one (.lit '=')]) content ≤ 1)

/-- `AutoFixer._should_add_semicolon`. -/
def shouldAddSemicolon (g1 : List Char) : Bool :=
  let line := pyStrip g1
  if line.isEmpty then false
  else if (match line.getLast? with
           | some c => c == ';' || c == '{' || c == '}' || c == ':'
           | none => false) then false
  else if ["if", "for", "while", "function", "class"].any
            (fun p => p.toList.isPrefixOf line) then false
  else true

/-- `AutoFixer._is_variable_name`: the source indexes `content` with the
match's start offset (an offset into the line). -/
def isVariableName (m : MatchInfo) (content : List Char) : Bool :=
  if m.mstart > 0 && (content.getD (m.mstart - 1) '\x00') == '.' then false else true

/-- `([a-z])([A-Z])` (used by `_to_upper_snake_case`). -/
def camelSplitPat : List RItem :=
  [.grp 1 [.cls isAsciiLower], .grp 2 [.cls isAsciiUpper]]

def camelSplitTmpl : List TItem := [.ref 1, .lit '_', .ref 2]

/-- `AutoFixer._to_upper_snake_case`. -/
def toUpperSnake (name : List Char) : List Char :=
  (pySub camelSplitPat camelSplitTmpl name).map pyUpperChar

/-- `=\s*[A-Z_][A-Z0-9_]*\s*[;\n]` -/
def constValUpperPat : List RItem :=
  [.one (.lit '='), .one (.star isPySpace), .one (.cls isUpperUnderscore),
   .one (.star isUpperDigitUnderscore), .one (.star isPySpace), .one (.cls semiOrNl)]

/-- `=\s*\d+\s*[;\n]` -/
def constValNumPat : List RItem :=
  [.one (.lit '='), .one (.star isPySpace), .one (.plus isAsciiDigit),
   .one (.star isPySpace), .one (.cls semiOrNl)]

/-- `AutoFixer._is_constant_value`: the source locates the line by
counting newlines in `content[:match.start()]` with the match's start
offset taken from the line-local match. -/
def isConstantValue (m : MatchInfo) (content : List Char) : Bool :=
  let k := ((content.take m.mstart).filter (fun c => c == '\n')).length
  let line := (splitNl content).getD k []
  (research constValUpperPat none line).isSome ||
    (research constValNumPat none line).isSome

/-- `import\s+[^;]+;` (used by `_is_import_used`). -/
def importStmtPat : List RItem :=
  litsL "import".toList ++ [.one (.plus isPySpace), .one (.plus nonSemi), .one (.lit ';')]

/-- `AutoFixer._is_import_used`. -/
def isImportUsed (name : List Char) (content : List Char) : Bool :=
  pyContains (pySub importStmtPat [] content) name

/-- `AutoFixer._remove_unused_from_import`. -/
def removeUnusedFromImport (importStatement : List Char) (unusedName : List Char) : List Char :=
  pyReplace (pyReplace importStatement (", ".toList ++ unusedName) [])
    (unusedName ++ ", ".toList) []

/-- `AutoFixer._is_in_json_context`. -/
def isInJsonContext (_m : MatchInfo) (content : List Char) : Bool :=
  pyContains content ".json".toList || pyContains content "JSON.parse".toList

/-- `AutoFixer.fix_patterns`: the rule table built by
the auto-fixer's constructor, in source order. -/
def fixPatterns : List (String × PatternFix) :=
  [("ts-prefer-const",
    { pattern := preferConstFixPat, repl := .tmpl preferConstTmpl,
      condition := some (fun m content => isNeverReassigned (lookupGroup m.groups 1) content) }),
   ("ts-no-console-log",
    { pattern := consoleLogPat, repl := .tmpl [], condition := none }),
   ("ts-add-semicolon",
    { pattern := addSemicolonPat, repl := .tmpl addSemicolonTmpl,
      condition := some (fun m _content => shouldAddSemicolon (lookupGroup m.groups 1)) }),
   ("ts-naming-camelcase",
    { pattern := namingCamelPat,
      repl := .fn (fun m => lookupGroup m.groups 1 ++ pyCapitalize (lookupGroup m.groups 2)),
      condition := some (fun m content => isVariableName m content) }),
   ("ts-naming-constants",
    { pattern := namingConstantsPat,
      repl := .fn (fun m =>
        "const ".toList ++ toUpperSnake (lookupGroup m.groups 1) ++ " =".toList),
      condition := some (fun m content => isConstantValue m content) }),
   ("ts-remove-unused-import",
    { pattern := removeUnusedImportPat,
      repl := .fn (fun m => removeUnusedFromImport m.whole (lookupGroup m.groups 1)),
      condition := some (fun m content => !(isImportUsed (lookupGroup m.groups 1) content)) }),
   ("pw-stable-locators",
    { pattern := stableLocatorsPat, repl := .tmpl stableLocatorsTmpl,
      condition := some (fun m _content => (lookupGroup m.groups 1).contains '#') }),
   ("pw-proper-assertions",
    { pattern := properAssertionsPat, repl := .tmpl properAssertionsTmpl,
      condition := none }),
   ("prettier-quotes",
    { pattern := prettierQuotesPat, repl := .tmpl prettierQuotesTmpl,
      condition := some (fun m content => !(isInJsonContext m content)) }),
   ("prettier-spacing",
    { pattern := prettierSpacingPat, repl := .tmpl prettierSpacingTmpl,
      condition := none })]

/-- The line a fix targets: element `line_number - 1` of the newline
split (`lines[issue.line_number - 1]` in the source). -/
def targetLine (content : List Char) (issue : CodeIssue) : List Char :=
  (splitNl content).getD (issue.line_number - 1) []

/-- The replacement line a pattern fix computes from a match: for a
template replacement, `re.sub` over the whole line; for a callable one,
the callable's result becomes the entire new line (as in the source). -/
def ruleNewLine (pf : PatternFix) (line : List Char) (st en : Nat) (gs : Groups) :
    List Char :=
  match pf.repl with
  | .tmpl t => pySub pf.pattern t line
  | .fn f => f ⟨st, en, extractSpan line st en, gs⟩

/-- `AutoFixer._apply_pattern_fix`. -/
def apply_pattern_fix (pf : PatternFix) (content : List Char) (issue : CodeIssue) :
    FixAttempt :=
  if issue.line_number ≤ (splitNl content).length then
    match research pf.pattern none (targetLine content issue) with
    | none => .failure "Pattern not found"
    | some (st, en, gs) =>
      if (match pf.condition with
          | some cond =>
            cond ⟨st, en, extractSpan (targetLine content issue) st en, gs⟩ content
          | none => true) then
        .success
          (joinNl ((splitNl content).set (issue.line_number - 1)
            (ruleNewLine pf (targetLine content issue) st en gs)))
          ("Applied pattern fix for " ++ issue.rule_id)
      else .failure "Condition not met"
  else .failure "Pattern not found"

/-- `AutoFixer._fix_unused_import`. -/
def fix_unused_import (content : List Char) (issue : CodeIssue) : FixAttempt :=
  let lines := splitNl content
  if issue.line_number ≤ lines.length then
    let line := lines.getD (issue.line_number - 1) []
    if "import".toList.isPrefixOf (pyStrip line) then
      .success (joinNl (lines.set (issue.line_number - 1) ("// ".toList ++ line)))
        "Commented out unused import"
    else .failure "Could not fix unused import"
  else .failure "Could not fix unused import"

/-- `AutoFixer._fix_missing_semicolon`. -/
def fix_missing_semicolon (content : List Char) (issue : CodeIssue) : FixAttempt :=
  let lines := splitNl content
  if issue.line_number ≤ lines.length then
    let line := lines.getD (issue.line_number - 1) []
    if !((pyRstrip line).getLast? == some ';') then
      .success (joinNl (lines.set (issue.line_number - 1) (pyRstrip line ++ [';'])))
        "Added missing semicolon"
    else .failure "Could not add semicolon"
  else .failure "Could not add semicolon"

/-- `AutoFixer._fix_spacing_issue`. -/
def fix_spacing_issue (content : List Char) (issue : CodeIssue) : FixAttempt :=
  let lines := splitNl content
  if issue.line_number ≤ lines.length then
    let line := lines.getD (issue.line_number - 1) []
    let fixedLine :=
      pySub callSpacingPat callSpacingTmpl
        (pySub assignSpacingPat assignSpacingTmpl
          (pySub prettierSpacingPat prettierSpacingTmpl line))
    if fixedLine ≠ line then
      .success (joinNl (lines.set (issue.line_number - 1) fixedLine))
        "Fixed spacing issues"
    else .failure "Could not fix spacing"
  else .failure "Could not fix spacing"

/-- `AutoFixer._fix_quote_style`. -/
def fix_quote_style (content : List Char) (issue : CodeIssue) : FixAttempt :=
  let lines := splitNl content
  if issue.line_number ≤ lines.length then
    let line := lines.getD (issue.line_number - 1) []
    let fixedLine := pySub prettierQuotesPat prettierQuotesTmpl line
    if fixedLine ≠ line then
      .success (joinNl (lines.set (issue.line_number - 1) fixedLine))
        "Fixed quote style"
    else .failure "Could not fix quotes"
  else .failure "Could not fix quotes"

/-- `AutoFixer._apply_generic_fix`. -/
def apply_generic_fix (content : List Char) (issue : CodeIssue) : FixAttempt :=
  let d := pyLowerList issue.description.toList
  if pyContains d "unused".toList && pyContains d "import".toList then
    fix_unused_import content issue
  else if pyContains d "semicolon".toList then
    fix_missing_semicolon content issue
  else if pyContains d "spacing".toList then
    fix_spacing_issue content issue
  else if pyContains d "quote".toList then
    fix_quote_style content issue
  else .failure "No generic fix available"

/-- `AutoFixer._apply_issue_fix`. -/
def apply_issue_fix (content : List Char) (issue : CodeIssue) : FixAttempt :=
  match List.find? (fun p => p.1 == issue.rule_id) fixPatterns with
  | some p => apply_pattern_fix p.2 content issue
  | none => apply_generic_fix content issue

/-- The per-issue step of `AutoFixer.fix_content`'s loop: on success the
content is replaced and an `applied_fixes` entry appended. -/
def fixStep (acc : List Char × List AppliedFix) (issue : CodeIssue) :
    List Char × List AppliedFix :=
  match apply_issue_fix acc.1 issue with
  | .success newContent desc => (newContent, acc.2 ++ [patternFixEntry issue desc])
  | .failure _ => acc

/-- `AutoFixer.fix_content`: linter pass first (recording one entry if it
changed the content), then the sequential per-issue pattern fixes over
the auto-fixable issues. -/
def auto_fixer_fix_content (content : List Char) (file_path : String)
    (issues : List CodeIssue) : List Char × List AppliedFix :=
  let linterFixed := linter_manager_fix content file_path
  let init : List Char × List AppliedFix :=
    if linterFixed = content then (content, []) else (linterFixed, [linterFixEntry])
  (issues.filter (fun i => i.auto_fixable)).foldl fixStep init

/-! ## Manual fixer (`fixers/manual_fixer.py`) -/

/-- One manual-fix suggestion.  The text fields populated from the
static template table (title, steps, example, resources) play no role in
any verified property and are omitted; `_create_suggestion` and
`_create_generic_suggestion` compute the fields below identically. -/
structure Suggestion where
  rule_id : String
  issue_count : Nat
  severity : String
  estimated_effort : String
  priority : String
deriving DecidableEq, Repr

/-- `ManualFixer._calculate_priority`. -/
def calculate_priority (issues : List CodeIssue) : String :=
  let errorCount := (issues.filter (fun i => i.severity == "error")).length
  let warningCount := (issues.filter (fun i => i.severity == "warning")).length
  if errorCount > 0 then "high"
  else if warningCount > 5 then "medium"
  else "low"

/-- `ManualFixer._estimate_effort`. -/
def estimate_effort (rule_id : String) (issue_count : Nat) : String :=
  let base :=
    match List.find? (fun p => p.1 == rule_id)
      [("ts-explicit-types", "medium"), ("ts-no-any", "medium"),
       ("ts-single-responsibility", "high"), ("pw-page-object-pattern", "high"),
       ("pw-stable-locators", "low"), ("pw-test-isolation", "medium"),
       ("cucumber-given-when-then", "low"), ("cucumber-imperative-mood", "low"),
       ("cucumber-no-ui-details", "medium")] with
    | some p => p.2
    | none => "medium"
  if issue_count > 10 then
    if base == "low" then "medium"
    else if base == "medium" then "high"
    else base
  else base

/-- `ManualFixer._create_suggestion` (with `_create_generic_suggestion`
for unknown rules; both compute the modelled fields the same way). -/
def create_suggestion (rule_id : String) (issues : List CodeIssue) : Suggestion :=
  { rule_id := rule_id,
    issue_count := issues.length,
    severity := match issues with
                | [] => "warning"
                | i :: _ => i.severity,
    estimated_effort := estimate_effort rule_id issues.length,
    priority := calculate_priority issues }

/-- Insertion-ordered grouping by rule id (Python dict semantics). -/
def groupAdd (groups : List (String × List CodeIssue)) (issue : CodeIssue) :
    List (String × List CodeIssue) :=
  if groups.any (fun g => g.1 == issue.rule_id) then
    groups.map (fun g => if g.1 == issue.rule_id then (g.1, g.2 ++ [issue]) else g)
  else groups ++ [(issue.rule_id, [issue])]

/-- `ManualFixer.get_manual_suggestions`. -/
def get_manual_suggestions (issues : List CodeIssue) : List Suggestion :=
  let grouped := (issues.filter (fun i => !i.auto_fixable)).foldl groupAdd []
  grouped.map (fun g => create_suggestion g.1 g.2)

/-! ## Fix orchestrator (`fixers/fix_manager.py`) -/

/-- The scalar fields of `_calculate_fix_statistics`'s result.  The
Python code rounds `completion_percentage` to one decimal; the exact
rational is kept here (rounding maps any value in an interval with
multiple-of-1/10 endpoints back into it).  The per-severity breakdown
and fix-type tally are not needed by any verified property. -/
structure FixStatistics where
  total_issues : Nat
  auto_fixed : Nat
  manual_required : Nat
  completion_percentage : ℚ
deriving DecidableEq, Repr

/-- `FixManager._calculate_fix_statistics`. -/
def calculate_fix_statistics (all_issues : List CodeIssue)
    (applied_fixes : List AppliedFix) (manual_suggestions : List Suggestion) :
    FixStatistics :=
  { total_issues := all_issues.length,
    auto_fixed := applied_fixes.length,
    manual_required := manual_suggestions.length,
    completion_percentage :=
      if all_issues.length > 0 then
        (applied_fixes.length : ℚ) / (all_issues.length : ℚ) * 100
      else 100 }

/-- `_calculate_quality_improvement`'s result; `improvement_score` is
the exact rational (the source rounds it to one decimal), and the
`remaining_*` fields are integers since the Python subtraction can go
negative. -/
structure QualityImprovement where
  original_errors : Nat
  original_warnings : Nat
  fixed_errors : Nat
  fixed_warnings : Nat
  improvement_score : ℚ
  remaining_errors : Int
  remaining_warnings : Int
deriving DecidableEq, Repr

/-- The per-entry test of `_calculate_quality_improvement`'s
`fixed_errors`/`fixed_warnings` comprehensions: some original issue of
severity `sev` has the entry's rule id (an entry without a rule id —
`f.get('rule_id') is None` — matches nothing). -/
def fixedSevMatch (original_issues : List CodeIssue) (sev : String)
    (f : AppliedFix) : Bool :=
  original_issues.any (fun i =>
    i.rule_id == f.rule_id.getD "" && f.rule_id.isSome && i.severity == sev)

/-- `FixManager._calculate_quality_improvement`. -/
def calculate_quality_improvement (original_issues : List CodeIssue)
    (applied_fixes : List AppliedFix) : QualityImprovement :=
  let originalErrors := (original_issues.filter (fun i => i.severity == "error")).length
  let originalWarnings := (original_issues.filter (fun i => i.severity == "warning")).length
  let fixedErrors := (applied_fixes.filter (fixedSevMatch original_issues "error")).length
  let fixedWarnings := (applied_fixes.filter (fixedSevMatch original_issues "warning")).length
  let totalWeight := originalErrors * 3 + originalWarnings * 1
  let fixedWeight := fixedErrors * 3 + fixedWarnings * 1
  { original_errors := originalErrors,
    original_warnings := originalWarnings,
    fixed_errors := fixedErrors,
    fixed_warnings := fixedWarnings,
    improvement_score :=
      if totalWeight > 0 then (fixedWeight : ℚ) / (totalWeight : ℚ) * 100 else 0,
    remaining_errors := (originalErrors : Int) - (fixedErrors : Int),
    remaining_warnings := (originalWarnings : Int) - (fixedWarnings : Int) }

/-- `one_click_fix`'s result.  The `next_steps` narrative strings play
no role in any verified property and are omitted. -/
structure FixResult where
  original_content : List Char
  fixed_content : List Char
  content_changed : Bool
  applied_fixes : List AppliedFix
  manual_suggestions : List Suggestion
  fix_statistics : FixStatistics
  quality_improvement : QualityImprovement

/-- `FixManager.one_click_fix`. -/
def one_click_fix (content : List Char) (file_path : String)
    (issues : List CodeIssue) : FixResult :=
  let auto_fixable_issues := issues.filter (fun i => i.auto_fixable)
  let manual_issues := issues.filter (fun i => !i.auto_fixable)
  let fixPair := auto_fixer_fix_content content file_path auto_fixable_issues
  let manual_suggestions := get_manual_suggestions manual_issues
  { original_content := content,
    fixed_content := fixPair.1,
    content_changed := fixPair.1 != content,
    applied_fixes := fixPair.2,
    manual_suggestions := manual_suggestions,
    fix_statistics := calculate_fix_statistics issues fixPair.2 manual_suggestions,
    quality_improvement := calculate_quality_improvement issues fixPair.2 }

/-! ## TypeScript analyzer: the let-vs-const check
(`analyzers/typescript_analyzer.py`, `_check_code_structure`) -/

/-- `let\s+([a-zA-Z_][a-zA-Z0-9_]*)\s*=` -/
def letScanPat : List RItem :=
  litsL "let".toList ++
  [.one (.plus isPySpace), .grp 1 [.cls isAlphaUnderscore, .star isPyWordChar],
   .one (.star isPySpace), .one (.lit '=')]

/-- The `ts-prefer-const` issue emitted for variable `var` at (1-based)
`lineNum`, column `col`. -/
def preferConstIssue (var : List Char) (lineNum col : Nat) (file_path : String) :
    CodeIssue :=
  { rule_id := "ts-prefer-const",
    description :=
      "Variable \"" ++ String.mk var ++ "\" is never reassigned, use const instead of let",
    severity := "warning",
    line_number := lineNum,
    column := col,
    file_path := file_path,
    suggested_fix := some ("const " ++ String.mk var),
    auto_fixable := true,
    category := "structure" }

/-- The let-vs-const loop of `_check_code_structure`: for every
`let`-assignment match on a line containing neither `++` nor `--` nor
`for`, emit a `ts-prefer-const` warning. -/
def check_prefer_const (content : List Char) (file_path : String) : List CodeIssue :=
  (splitNl content).enum.flatMap (fun p =>
    let line := p.2
    (pyFinditer letScanPat line).flatMap (fun m =>
      if !(pyContains line "++".toList) && !(pyContains line "--".toList)
          && !(pyContains line "for".toList) then
        [preferConstIssue (lookupGroup m.2.2 1) (p.1 + 1) m.1 file_path]
      else []))

/-! ## Cucumber analyzer: scenario step ordering
(`analyzers/cucumber_analyzer.py`) -/

/-- Python `step.startswith(pre)`. -/
def pyStartsWith (step pre : String) : Bool :=
  pre.toList.isPrefixOf step.toList

/-- `CucumberAnalyzer._get_step_type`. -/
def get_step_type (step : String) : String :=
  if pyStartsWith step "Given " then "Given"
  else if pyStartsWith step "When " then "When"
  else if pyStartsWith step "Then " then "Then"
  else if pyStartsWith step "And " || pyStartsWith step "But " then "And/But"
  else "Unknown"

/-- Phase state `(given_phase, when_phase, then_phase)` of
`_analyze_scenario_steps`, updated per step type. -/
def stepPhase (st : Bool × Bool × Bool) (t : String) : Bool × Bool × Bool :=
  if t == "When" then (false, true, st.2.2)
  else if t == "Then" then (st.1, false, true)
  else st

/-- The `cucumber-given-when-then` issue for a Given step after the
When/Then phase, at step line `ln`. -/
def givenAfterIssue (ln : Nat) (file_path : String) : CodeIssue :=
  { rule_id := "cucumber-given-when-then",
    description := "Given steps should not appear after When or Then",
    severity := "error",
    line_number := ln,
    column := 0,
    file_path := file_path,
    category := "gherkin" }

/-- The `cucumber-given-when-then` issue for a scenario that does not
start with a Given step. -/
def startIssue (ln : Nat) (file_path : String) : CodeIssue :=
  { rule_id := "cucumber-given-when-then",
    description := "Scenario should start with Given step",
    severity := "error",
    line_number := ln,
    column := 0,
    file_path := file_path,
    category := "gherkin" }

/-- The phase loop of `_analyze_scenario_steps`: steps are pairs
`(line number, stripped step text)`. -/
def scenarioPhaseLoop (file_path : String) :
    List (Nat × String) → (Bool × Bool × Bool) → List CodeIssue
  | [], _ => []
  | (ln, s) :: rest, st =>
    let t := get_step_type s
    (if t == "Given" && (st.2.1 || st.2.2) then [givenAfterIssue ln file_path] else [])
      ++ scenarioPhaseLoop file_path rest (stepPhase st t)

/-- `CucumberAnalyzer._analyze_scenario_steps` (empty step lists return
no issues; the scenario-line argument is unused by the source too). -/
def analyze_scenario_steps (steps : List (Nat × String)) (_scenario_line : Nat)
    (file_path : String) : List CodeIssue :=
  match steps with
  | [] => []
  | first :: _ =>
    (if get_step_type first.2 != "Given" then [startIssue first.1 file_path] else [])
      ++ scenarioPhaseLoop file_path steps (true, false, false)

/-! ## File analyzer dispatch (`analyzers/file_analyzer.py`) -/

/-- The synthetic issue `FileAnalyzer.analyze_file` returns when the
file cannot be read. -/
def fileReadErrorIssue (file_path : String) (e : String) : CodeIssue :=
  { rule_id := "file-read-error",
    description := "Could not read file: " ++ e,
    severity := "error",
    line_number := 1,
    column := 0,
    file_path := file_path,
    suggested_fix := none,
    auto_fixable := false,
    category := "system" }

/-- `FileAnalyzer.analyze_file`, with the disk read reified as an
`Except` value and the analyzer-selection-and-run phase abstracted as a
function argument (the error branch returns before any analyzer runs). -/
def file_analyzer_analyze_file (runAnalyzers : String → String → List CodeIssue)
    (file_path : String) (content : Option String)
    (readResult : Except String String) : List CodeIssue :=
  match content with
  | some c => runAnalyzers file_path c
  | none =>
    match readResult with
    | .error e => [fileReadErrorIssue file_path e]
    | .ok c => runAnalyzers file_path c

/-! # Theorems -/

/-- C5: if `analyze_file` is called with no content and the read fails,
the result is exactly one Issue with `rule_id = "file-read-error"`,
`severity = "error"`, `line_number = 1`, `category = "system"`,
whatever the dispatched analyzers would have done. -/
theorem analyze_file_read_failure_single_issue
    (runAnalyzers : String → String → List CodeIssue) (file_path e : String) :
    file_analyzer_analyze_file runAnalyzers file_path none (.error e)
      = [fileReadErrorIssue file_path e]
    ∧ (fileReadErrorIssue file_path e).rule_id = "file-read-error"
    ∧ (fileReadErrorIssue file_path e).severity = "error"
    ∧ (fileReadErrorIssue file_path e).line_number = 1
    ∧ (fileReadErrorIssue file_path e).category = "system" :=
  ⟨rfl, rfl, rfl, rfl, rfl⟩

/-- C6: on the line `let apiKey = "abc";` the TypeScript analyzer's
let-vs-const check emits exactly one `ts-prefer-const` warning with
`auto_fixable = true`, and the auto-fixer, given that issue, rewrites
the content to `const apiKey = "abc";`. -/
theorem ts_prefer_const_scenario :
    check_prefer_const "let apiKey = \"abc\";".toList "app.ts"
      = [preferConstIssue "apiKey".toList 1 0 "app.ts"]
    ∧ (preferConstIssue "apiKey".toList 1 0 "app.ts").rule_id = "ts-prefer-const"
    ∧ (preferConstIssue "apiKey".toList 1 0 "app.ts").severity = "warning"
    ∧ (preferConstIssue "apiKey".toList 1 0 "app.ts").auto_fixable = true
    ∧ (auto_fixer_fix_content "let apiKey = \"abc\";".toList "app.ts"
        [preferConstIssue "apiKey".toList 1 0 "app.ts"]).1
      = "const apiKey = \"abc\";".toList :=
  ⟨by decide, rfl, rfl, rfl, by decide⟩

/-- C8 helper: `calculate_priority` in terms of the issues. -/
theorem calculate_priority_spec (issues : List CodeIssue) :
    (calculate_priority issues = "high" ↔ ∃ i ∈ issues, i.severity = "error")
    ∧ ((¬ ∃ i ∈ issues, i.severity = "error") →
        (calculate_priority issues = "medium" ↔
          5 < (issues.filter (fun i => i.severity == "warning")).length))
    ∧ ((¬ ∃ i ∈ issues, i.severity = "error") →
        ¬ 5 < (issues.filter (fun i => i.severity == "warning")).length →
        calculate_priority issues = "low") := by
  have hmem : (0 < (issues.filter (fun i => i.severity == "error")).length)
      ↔ ∃ i ∈ issues, i.severity = "error" := by
    constructor
    · intro h
      obtain ⟨i, hi⟩ := List.exists_mem_of_length_pos h
      have h2 := List.mem_filter.mp hi
      exact ⟨i, h2.1, by simpa using h2.2⟩
    · rintro ⟨i, hi, hsev⟩
      exact List.length_pos_of_mem (List.mem_filter.mpr ⟨hi, by simpa using hsev⟩)
  unfold calculate_priority
  by_cases he : ∃ i ∈ issues, i.severity = "error"
  · rw [if_pos (hmem.mpr he)]
    refine ⟨⟨fun _ => he, fun _ => rfl⟩, fun hne => absurd he hne, fun hne _ => absurd he hne⟩
  · rw [if_neg (fun h => he (hmem.mp h))]
    by_cases hw : 5 < (issues.filter (fun i => i.severity == "warning")).length
    · rw [if_pos hw]
      exact ⟨⟨fun h => absurd h (by decide), fun h => absurd h he⟩,
        fun _ => ⟨fun _ => hw, fun _ => rfl⟩, fun _ hnw => absurd hw hnw⟩
    · rw [if_neg hw]
      exact ⟨⟨fun h => absurd h (by decide), fun h => absurd h he⟩,
        fun _ => ⟨fun h => absurd h (by decide), fun h => absurd h hw⟩,
        fun _ _ => rfl⟩

/-- C8: for a non-empty group of non-auto-fixable issues sharing one
rule id, the suggestion's priority is "high" iff some issue in the
group is an error; otherwise "medium" iff more than 5 issues in the
group are warnings; otherwise "low". -/
theorem suggestion_priority_spec (rule_id : String) (issues : List CodeIssue)
    (_hne : issues ≠ [])
    (_hgroup : ∀ i ∈ issues, i.auto_fixable = false ∧ i.rule_id = rule_id) :
    ((create_suggestion rule_id issues).priority = "high"
        ↔ ∃ i ∈ issues, i.severity = "error")
    ∧ ((¬ ∃ i ∈ issues, i.severity = "error") →
        ((create_suggestion rule_id issues).priority = "medium" ↔
          5 < (issues.filter (fun i => i.severity == "warning")).length))
    ∧ ((¬ ∃ i ∈ issues, i.severity = "error") →
        ¬ 5 < (issues.filter (fun i => i.severity == "warning")).length →
        (create_suggestion rule_id issues).priority = "low") := by
  have h : (create_suggestion rule_id issues).priority = calculate_priority issues := rfl
  rw [h]
  exact calculate_priority_spec issues

/-- A fixture for the C8 witness: two non-auto-fixable issues sharing
the rule id `pw-explicit-waits`, one of severity error. -/
def waitsErrorIssue : CodeIssue :=
  { rule_id := "pw-explicit-waits", description := "d", severity := "error",
    line_number := 3, auto_fixable := false }

def waitsWarningIssue : CodeIssue :=
  { rule_id := "pw-explicit-waits", description := "d", severity := "warning",
    line_number := 4, auto_fixable := false }

theorem suggestion_priority_spec_witness :
    (create_suggestion "pw-explicit-waits" [waitsErrorIssue, waitsWarningIssue]).priority
      = "high" :=
  (suggestion_priority_spec "pw-explicit-waits" [waitsErrorIssue, waitsWarningIssue]
      (by decide) (by decide)).1.mpr
    ⟨waitsErrorIssue, List.mem_cons_self _ _, rfl⟩

/-- Out-of-range guard of `_apply_pattern_fix`: for any rule pattern the
attempt fails without touching the content. -/
theorem apply_pattern_fix_out_of_range (pf : PatternFix) (content : List Char)
    (issue : CodeIssue) (h : (splitNl content).length < issue.line_number) :
    apply_pattern_fix pf content issue = .failure "Pattern not found" := by
  unfold apply_pattern_fix
  rw [if_neg (Nat.not_le.mpr h)]

/-- C10: for an issue whose line number exceeds the number of
newline-split lines, every fix attempt (pattern-based or generic)
returns failure, and the fix loop leaves both the content and the
`applied_fixes` accumulator unchanged. -/
theorem auto_fixer_out_of_range_safe (content : List Char) (issue : CodeIssue)
    (h : (splitNl content).length < issue.line_number) :
    (apply_issue_fix content issue).failed = true
    ∧ ∀ fixes : List AppliedFix, fixStep (content, fixes) issue = (content, fixes) := by
  have hle : ¬ issue.line_number ≤ (splitNl content).length := Nat.not_le.mpr h
  have hfail : (apply_issue_fix content issue).failed = true := by
    unfold apply_issue_fix
    cases hfind : List.find? (fun p => p.1 == issue.rule_id) fixPatterns with
    | some p =>
      show (apply_pattern_fix p.2 content issue).failed = true
      rw [apply_pattern_fix_out_of_range p.2 content issue h]
      rfl
    | none =>
      show (apply_generic_fix content issue).failed = true
      unfold apply_generic_fix fix_unused_import fix_missing_semicolon
        fix_spacing_issue fix_quote_style
      simp only [if_neg hle]
      split
      · rfl
      · split
        · rfl
        · split
          · rfl
          · split
            · rfl
            · rfl
  refine ⟨hfail, fun fixes => ?_⟩
  unfold fixStep
  cases hres : apply_issue_fix content issue with
  | success c d => rw [hres] at hfail; simp [FixAttempt.failed] at hfail
  | failure r => rfl

/-! ### C7: the Given-When-Then three-phase machine -/

/-- The phase state reached after processing a list of steps. -/
def phaseAfter (st : Bool × Bool × Bool) (l : List (Nat × String)) : Bool × Bool × Bool :=
  l.foldl (fun s p => stepPhase s (get_step_type p.2)) st

theorem phaseAfter_cons (st : Bool × Bool × Bool) (x : Nat × String)
    (l : List (Nat × String)) :
    phaseAfter st (x :: l) = phaseAfter (stepPhase st (get_step_type x.2)) l := by
  unfold phaseAfter
  rw [List.foldl_cons]

theorem scenarioPhaseLoop_append (fp : String) (pre rest : List (Nat × String))
    (st : Bool × Bool × Bool) :
    scenarioPhaseLoop fp (pre ++ rest) st
      = scenarioPhaseLoop fp pre st ++ scenarioPhaseLoop fp rest (phaseAfter st pre) := by
  induction pre generalizing st with
  | nil =>
    have h : phaseAfter st [] = st := rfl
    rw [List.nil_append, h]
    rfl
  | cons x pre ih =>
    cases x with
    | mk ln s =>
      rw [List.cons_append]
      simp only [scenarioPhaseLoop]
      rw [ih, phaseAfter_cons, List.append_assoc]

/-- Once the machine has left the Given phase, it never returns to it:
the when-or-then flag is preserved by every later step. -/
theorem orFlag_mono (l : List (Nat × String)) (st : Bool × Bool × Bool)
    (h : (st.2.1 || st.2.2) = true) :
    ((phaseAfter st l).2.1 || (phaseAfter st l).2.2) = true := by
  induction l generalizing st with
  | nil => exact h
  | cons x l ih =>
    rw [phaseAfter_cons]
    apply ih
    unfold stepPhase
    by_cases h1 : (get_step_type x.2 == "When") = true
    · rw [if_pos h1]
      rfl
    · rw [if_neg h1]
      by_cases h2 : (get_step_type x.2 == "Then") = true
      · rw [if_pos h2]
        rfl
      · rw [if_neg h2]; exact h

/-- After a list containing a When or Then step, the when-or-then flag
is set. -/
theorem orFlag_of_mem (l : List (Nat × String)) (st : Bool × Bool × Bool)
    (h : ∃ p ∈ l, get_step_type p.2 = "When" ∨ get_step_type p.2 = "Then") :
    ((phaseAfter st l).2.1 || (phaseAfter st l).2.2) = true := by
  induction l generalizing st with
  | nil => simp at h
  | cons x l ih =>
    rw [phaseAfter_cons]
    rcases h with ⟨p, hp, ht⟩
    rcases List.mem_cons.mp hp with rfl | hmem
    · apply orFlag_mono
      rcases ht with h | h
      · rw [h]
        unfold stepPhase
        rw [if_pos (by decide)]
        rfl
      · rw [h]
        unfold stepPhase
        rw [if_neg (by decide), if_pos (by decide)]
        rfl
    · exact ih _ ⟨p, hmem, ht⟩

theorem mem_analyze_scenario_steps_of_mem_loop (steps : List (Nat × String))
    (sl : Nat) (fp : String) (x : CodeIssue)
    (h : x ∈ scenarioPhaseLoop fp steps (true, false, false)) :
    x ∈ analyze_scenario_steps steps sl fp := by
  cases steps with
  | nil => simp [scenarioPhaseLoop] at h
  | cons f rest =>
    unfold analyze_scenario_steps
    exact List.mem_append_right _ h

/-- A Given step with the when-or-then flag already set produces the
`cucumber-given-when-then` issue at its line. -/
theorem mem_loop_given (fp : String) (pre post : List (Nat × String))
    (ln : Nat) (s : String) (st : Bool × Bool × Bool)
    (hGiven : get_step_type s = "Given")
    (hflag : ((phaseAfter st pre).2.1 || (phaseAfter st pre).2.2) = true) :
    givenAfterIssue ln fp ∈ scenarioPhaseLoop fp (pre ++ (ln, s) :: post) st := by
  rw [scenarioPhaseLoop_append]
  apply List.mem_append_right
  simp only [scenarioPhaseLoop]
  rw [hGiven]
  simp only [hflag]
  simp

/-- C7: in a scenario's step list, every Given step appearing after a
When or Then step yields a `cucumber-given-when-then` error at that
step's line, and And/But steps leave the phase state unchanged. -/
theorem cucumber_given_after_when_then_error (steps : List (Nat × String))
    (scenario_line : Nat) (fp : String) (i : Nat) (hi : i < steps.length)
    (hGiven : get_step_type (steps.get ⟨i, hi⟩).2 = "Given")
    (hPrior : ∃ j : Nat, ∃ hj : j < i,
        get_step_type (steps.get ⟨j, lt_trans hj hi⟩).2 = "When"
        ∨ get_step_type (steps.get ⟨j, lt_trans hj hi⟩).2 = "Then") :
    givenAfterIssue (steps.get ⟨i, hi⟩).1 fp
        ∈ analyze_scenario_steps steps scenario_line fp
    ∧ ∀ (st : Bool × Bool × Bool) (s : String),
        get_step_type s = "And/But" → stepPhase st (get_step_type s) = st := by
  constructor
  · apply mem_analyze_scenario_steps_of_mem_loop steps scenario_line fp
    have hflag : ((phaseAfter (true, false, false) (steps.take i)).2.1
        || (phaseAfter (true, false, false) (steps.take i)).2.2) = true := by
      apply orFlag_of_mem
      obtain ⟨j, hj, hjt⟩ := hPrior
      refine ⟨steps.get ⟨j, lt_trans hj hi⟩, ?_, hjt⟩
      have hjlen : j < (steps.take i).length := by
        rw [List.length_take]
        exact lt_min hj (lt_trans hj hi)
      have hget : (steps.take i).get ⟨j, hjlen⟩ = steps.get ⟨j, lt_trans hj hi⟩ := by
        simp [List.getElem_take]
      rw [← hget]
      exact List.get_mem _ _ _
    have hmem := mem_loop_given fp (steps.take i) (steps.drop (i + 1))
      (steps.get ⟨i, hi⟩).1 (steps.get ⟨i, hi⟩).2 (true, false, false) hGiven hflag
    have hsplit : steps.take i ++ ((steps.get ⟨i, hi⟩).1, (steps.get ⟨i, hi⟩).2)
        :: steps.drop (i + 1) = steps := by
      conv_rhs => rw [← List.take_append_drop i steps]
      rw [List.drop_eq_getElem_cons hi]
      rfl
    rw [hsplit] at hmem
    exact hmem
  · intro st s h
    rw [h]
    unfold stepPhase
    rw [if_neg (by decide), if_neg (by decide)]

theorem cucumber_given_after_when_then_error_witness :
    givenAfterIssue 11 "login.feature"
      ∈ analyze_scenario_steps [(10, "When I log in"), (11, "Given I am logged out")]
          9 "login.feature" :=
  (cucumber_given_after_when_then_error
    [(10, "When I log in"), (11, "Given I am logged out")] 9 "login.feature" 1
    (by decide) rfl ⟨0, Nat.zero_lt_one, Or.inl rfl⟩).1

/-- A fixture for the C10 witness: an issue pointing past the last line
of the two-character content `a;`. -/
def outOfRangeIssue : CodeIssue :=
  { rule_id := "ts-prefer-const", description := "d", severity := "warning",
    line_number := 9, auto_fixable := true }

theorem auto_fixer_out_of_range_safe_witness :
    (splitNl "a;".toList).length < outOfRangeIssue.line_number
    ∧ (apply_issue_fix "a;".toList outOfRangeIssue).failed = true
    ∧ fixStep ("a;".toList, []) outOfRangeIssue = ("a;".toList, []) := by
  refine ⟨by decide, ?_, ?_⟩
  · exact (auto_fixer_out_of_range_safe "a;".toList outOfRangeIssue (by decide)).1
  · exact (auto_fixer_out_of_range_safe "a;".toList outOfRangeIssue (by decide)).2 []

/-! ### Accounting for the `applied_fixes` list (C1 - C4) -/

/-- The accumulator `fix_content` starts its loop with: the linter-pass
output, plus one linter entry when that pass changed the content. -/
def initAcc (content : List Char) (fp : String) : List Char × List AppliedFix :=
  if linter_manager_fix content fp = content then (content, [])
  else (linter_manager_fix content fp, [linterFixEntry])

theorem auto_fixer_fix_content_eq_foldl (content : List Char) (fp : String)
    (issues : List CodeIssue) :
    auto_fixer_fix_content content fp issues
      = (issues.filter (fun i => i.auto_fixable)).foldl fixStep (initAcc content fp) := rfl

theorem initAcc_of_identity (content : List Char) (fp : String)
    (h : custom_linter_fix content = content) : initAcc content fp = (content, []) := by
  unfold initAcc linter_manager_fix
  rw [h, if_pos rfl]

theorem initAcc_countP (content : List Char) (fp : String) (q : AppliedFix → Bool)
    (hq : q linterFixEntry = false) : (initAcc content fp).2.countP q = 0 := by
  unfold initAcc
  split <;> simp [hq]

theorem fixStep_snd (acc : List Char × List AppliedFix) (issue : CodeIssue) :
    (fixStep acc issue).2 = acc.2
    ∨ ∃ d, (fixStep acc issue).2 = acc.2 ++ [patternFixEntry issue d] := by
  unfold fixStep
  cases apply_issue_fix acc.1 issue with
  | success c d => exact Or.inr ⟨d, rfl⟩
  | failure r => exact Or.inl rfl

/-- Each issue contributes at most one `applied_fixes` entry, and that
entry carries the issue's rule id: the generic counting bound for the
fix loop. -/
theorem foldl_fixStep_countP (issues : List CodeIssue)
    (acc : List Char × List AppliedFix) (q : AppliedFix → Bool)
    (qi : CodeIssue → Bool)
    (hq : ∀ issue desc, q (patternFixEntry issue desc) = qi issue) :
    ((issues.foldl fixStep acc).2.countP q)
      ≤ issues.countP qi + acc.2.countP q := by
  induction issues generalizing acc with
  | nil => simp
  | cons i rest ih =>
    rw [List.foldl_cons, List.countP_cons]
    have hstep : (fixStep acc i).2.countP q
        ≤ acc.2.countP q + (if qi i then 1 else 0) := by
      rcases fixStep_snd acc i with h | ⟨d, h⟩
      · rw [h]; omega
      · rw [h, List.countP_append]
        have hone : List.countP q [patternFixEntry i d] = if qi i then 1 else 0 := by
          simp [List.countP_cons, hq i d]
        omega
    have hrest := ih (fixStep acc i)
    omega

theorem foldl_fixStep_length (issues : List CodeIssue)
    (acc : List Char × List AppliedFix) :
    ((issues.foldl fixStep acc).2).length ≤ issues.length + acc.2.length := by
  induction issues generalizing acc with
  | nil => simp
  | cons i rest ih =>
    rw [List.foldl_cons]
    have hstep : (fixStep acc i).2.length ≤ acc.2.length + 1 := by
      rcases fixStep_snd acc i with h | ⟨d, h⟩ <;> rw [h] <;> simp
    have hrest := ih (fixStep acc i)
    rw [List.length_cons]
    omega

theorem mem_foldl_fixStep (issues : List CodeIssue)
    (acc : List Char × List AppliedFix) (f : AppliedFix)
    (hf : f ∈ (issues.foldl fixStep acc).2) :
    f ∈ acc.2 ∨ ∃ i ∈ issues, ∃ d, f = patternFixEntry i d := by
  induction issues generalizing acc with
  | nil => exact Or.inl hf
  | cons i rest ih =>
    rw [List.foldl_cons] at hf
    rcases ih (fixStep acc i) hf with h | ⟨j, hj, d, hd⟩
    · rcases fixStep_snd acc i with hs | ⟨d, hs⟩
      · rw [hs] at h
        exact Or.inl h
      · rw [hs] at h
        rcases List.mem_append.mp h with h1 | h1
        · exact Or.inl h1
        · rcases List.mem_cons.mp h1 with h2 | h2
          · exact Or.inr ⟨i, List.mem_cons_self _ _, d, h2⟩
          · exact absurd h2 (List.not_mem_nil f)
    · exact Or.inr ⟨j, List.mem_cons_of_mem _ hj, d, hd⟩

theorem countP_filter_le (p q : CodeIssue → Bool) (l : List CodeIssue) :
    (l.filter q).countP p ≤ l.countP p :=
  (List.filter_sublist l).countP_le p

/-! ### C1: quality-improvement score bounds -/

/-- If one rule id never occurs with two different severities among the
issues, the entries counted as fixed errors (resp. warnings) are at most
the original errors (resp. warnings). -/
theorem fixed_count_le (content : List Char) (fp : String) (issues : List CodeIssue)
    (sev : String)
    (hpure : ∀ i ∈ issues, ∀ j ∈ issues, i.rule_id = j.rule_id → i.severity = j.severity) :
    (((auto_fixer_fix_content content fp
          (issues.filter (fun i => i.auto_fixable))).2).filter
        (fixedSevMatch issues sev)).length
      ≤ (issues.filter (fun i => i.severity == sev)).length := by
  rw [← List.countP_eq_length_filter, ← List.countP_eq_length_filter,
    auto_fixer_fix_content_eq_foldl]
  have hq : ∀ issue desc, fixedSevMatch issues sev (patternFixEntry issue desc)
      = issues.any (fun j => j.rule_id == issue.rule_id && j.severity == sev) := by
    intro issue desc
    unfold fixedSevMatch patternFixEntry
    simp
  have hinit : (initAcc content fp).2.countP (fixedSevMatch issues sev) = 0 := by
    apply initAcc_countP
    unfold fixedSevMatch linterFixEntry
    simp
  have hbound := foldl_fixStep_countP
    ((issues.filter (fun i => i.auto_fixable)).filter (fun i => i.auto_fixable))
    (initAcc content fp) (fixedSevMatch issues sev)
    (fun i => issues.any (fun j => j.rule_id == i.rule_id && j.severity == sev)) hq
  rw [hinit] at hbound
  have hfilter : ((issues.filter (fun i => i.auto_fixable)).filter
        (fun i => i.auto_fixable)).countP
        (fun i => issues.any (fun j => j.rule_id == i.rule_id && j.severity == sev))
      ≤ issues.countP
        (fun i => issues.any (fun j => j.rule_id == i.rule_id && j.severity == sev)) :=
    le_trans (countP_filter_le _ _ _) (countP_filter_le _ _ _)
  have hmono : issues.countP
        (fun i => issues.any (fun j => j.rule_id == i.rule_id && j.severity == sev))
      ≤ issues.countP (fun i => i.severity == sev) := by
    apply List.countP_mono_left
    intro i hi hany
    rw [List.any_eq_true] at hany
    obtain ⟨j, hj, hja⟩ := hany
    rw [Bool.and_eq_true, beq_iff_eq, beq_iff_eq] at hja
    have := hpure i hi j hj hja.1.symm
    rw [beq_iff_eq, this, hja.2]
  omega

/-- Score bounds given the count bounds. -/
theorem calculate_quality_improvement_bounds (issues : List CodeIssue)
    (applied : List AppliedFix)
    (hE : (applied.filter (fixedSevMatch issues "error")).length
        ≤ (issues.filter (fun i => i.severity == "error")).length)
    (hW : (applied.filter (fixedSevMatch issues "warning")).length
        ≤ (issues.filter (fun i => i.severity == "warning")).length) :
    0 ≤ (calculate_quality_improvement issues applied).improvement_score
    ∧ (calculate_quality_improvement issues applied).improvement_score ≤ 100 := by
  have hscore : (calculate_quality_improvement issues applied).improvement_score
      = (if (issues.filter (fun i => i.severity == "error")).length * 3
            + (issues.filter (fun i => i.severity == "warning")).length * 1 > 0 then
          (((applied.filter (fixedSevMatch issues "error")).length * 3
            + (applied.filter (fixedSevMatch issues "warning")).length * 1 : ℕ) : ℚ)
          / (((issues.filter (fun i => i.severity == "error")).length * 3
            + (issues.filter (fun i => i.severity == "warning")).length * 1 : ℕ) : ℚ) * 100
        else 0) := rfl
  rw [hscore]
  split
  · rename_i hpos
    constructor
    · positivity
    · set fw : ℕ := (applied.filter (fixedSevMatch issues "error")).length * 3
        + (applied.filter (fixedSevMatch issues "warning")).length * 1 with hfw
      set tw : ℕ := (issues.filter (fun i => i.severity == "error")).length * 3
        + (issues.filter (fun i => i.severity == "warning")).length * 1 with htw
      have hle : fw ≤ tw := by omega
      have h1 : ((fw : ℕ) : ℚ) ≤ ((tw : ℕ) : ℚ) := Nat.cast_le.mpr hle
      have h2 : (0 : ℚ) ≤ ((tw : ℕ) : ℚ) := Nat.cast_nonneg tw
      have hdiv : ((fw : ℕ) : ℚ) / ((tw : ℕ) : ℚ) ≤ 1 := div_le_one_of_le₀ h1 h2
      calc ((fw : ℕ) : ℚ) / ((tw : ℕ) : ℚ) * 100 ≤ 1 * 100 :=
            mul_le_mul_of_nonneg_right hdiv (by norm_num)
        _ = 100 := by norm_num
  · exact ⟨le_refl 0, by norm_num⟩

/-- C1 (amended): for a non-empty well-formed issue list in which no
rule id occurs with two different severities, the improvement score is
in [0, 100]. -/
theorem improvement_score_bounds (content : List Char) (fp : String)
    (issues : List CodeIssue) (_hne : issues ≠ [])
    (hpure : ∀ i ∈ issues, ∀ j ∈ issues, i.rule_id = j.rule_id → i.severity = j.severity) :
    0 ≤ (one_click_fix content fp issues).quality_improvement.improvement_score
    ∧ (one_click_fix content fp issues).quality_improvement.improvement_score ≤ 100 := by
  have hqi : (one_click_fix content fp issues).quality_improvement
      = calculate_quality_improvement issues
          (auto_fixer_fix_content content fp
            (issues.filter (fun i => i.auto_fixable))).2 := rfl
  rw [hqi]
  exact calculate_quality_improvement_bounds issues _
    (fixed_count_le content fp issues "error" hpure)
    (fixed_count_le content fp issues "warning" hpure)

/-- A fixture for the C1 counterexample: two auto-fixable
`ts-prefer-const` issues sharing one rule id with different severities. -/
def sharedRuleErrorIssue : CodeIssue :=
  { rule_id := "ts-prefer-const", description := "d", severity := "error",
    line_number := 1, auto_fixable := true }

def sharedRuleWarningIssue : CodeIssue :=
  { rule_id := "ts-prefer-const", description := "d", severity := "warning",
    line_number := 2, auto_fixable := true }

/-- C1 counterexample: with one error and one warning sharing the rule
id `ts-prefer-const` and both fixes applied, the improvement score is
200, outside [0, 100]. -/
theorem improvement_score_counterexample :
    (one_click_fix "let a = 1;\nlet b = 2;".toList "f.ts"
        [sharedRuleErrorIssue, sharedRuleWarningIssue]).quality_improvement.improvement_score
      = 200
    ∧ ¬ (0 ≤ (one_click_fix "let a = 1;\nlet b = 2;".toList "f.ts"
          [sharedRuleErrorIssue, sharedRuleWarningIssue]).quality_improvement.improvement_score
        ∧ (one_click_fix "let a = 1;\nlet b = 2;".toList "f.ts"
          [sharedRuleErrorIssue, sharedRuleWarningIssue]).quality_improvement.improvement_score
          ≤ 100) := by
  have h : (one_click_fix "let a = 1;\nlet b = 2;".toList "f.ts"
        [sharedRuleErrorIssue, sharedRuleWarningIssue]).quality_improvement.improvement_score
      = ((8 : ℕ) : ℚ) / ((4 : ℕ) : ℚ) * 100 := rfl
  constructor
  · rw [h]; norm_num
  · intro hc
    have h2 := hc.2
    rw [h] at h2
    norm_num at h2

/-- A fixture for the C1 witness: a single well-formed warning issue. -/
def singleWarningIssue : CodeIssue :=
  { rule_id := "ts-prefer-const", description := "d", severity := "warning",
    line_number := 1, auto_fixable := true }

theorem improvement_score_bounds_witness :
    0 ≤ (one_click_fix "let a = 1;".toList "w.ts"
        [singleWarningIssue]).quality_improvement.improvement_score
    ∧ (one_click_fix "let a = 1;".toList "w.ts"
        [singleWarningIssue]).quality_improvement.improvement_score ≤ 100 :=
  improvement_score_bounds "let a = 1;".toList "w.ts" [singleWarningIssue]
    (by decide) (by decide)

/-! ### C2: completion-percentage bounds -/

theorem calculate_fix_statistics_bounds (issues : List CodeIssue)
    (applied : List AppliedFix) (suggestions : List Suggestion)
    (h : applied.length ≤ issues.length) :
    0 ≤ (calculate_fix_statistics issues applied suggestions).completion_percentage
    ∧ (calculate_fix_statistics issues applied suggestions).completion_percentage ≤ 100 := by
  have hc : (calculate_fix_statistics issues applied suggestions).completion_percentage
      = (if issues.length > 0 then
          ((applied.length : ℕ) : ℚ) / ((issues.length : ℕ) : ℚ) * 100 else 100) := rfl
  rw [hc]
  split
  · constructor
    · positivity
    · have h1 : ((applied.length : ℕ) : ℚ) ≤ ((issues.length : ℕ) : ℚ) := Nat.cast_le.mpr h
      have h2 : (0 : ℚ) ≤ ((issues.length : ℕ) : ℚ) := Nat.cast_nonneg _
      have hdiv : ((applied.length : ℕ) : ℚ) / ((issues.length : ℕ) : ℚ) ≤ 1 :=
        div_le_one_of_le₀ h1 h2
      calc ((applied.length : ℕ) : ℚ) / ((issues.length : ℕ) : ℚ) * 100 ≤ 1 * 100 :=
            mul_le_mul_of_nonneg_right hdiv (by norm_num)
        _ = 100 := by norm_num
  · norm_num

/-- C2 (amended): when the linter pass leaves the content unchanged,
the completion percentage is in [0, 100] (with the unconditional linter
pre-pass it can exceed 100: see the counterexample). -/
theorem completion_percentage_bounds (content : List Char) (fp : String)
    (issues : List CodeIssue) (hlinter : custom_linter_fix content = content) :
    0 ≤ (one_click_fix content fp issues).fix_statistics.completion_percentage
    ∧ (one_click_fix content fp issues).fix_statistics.completion_percentage ≤ 100 := by
  have hstats : (one_click_fix content fp issues).fix_statistics
      = calculate_fix_statistics issues
          (auto_fixer_fix_content content fp
            (issues.filter (fun i => i.auto_fixable))).2
          (get_manual_suggestions (issues.filter (fun i => !i.auto_fixable))) := rfl
  rw [hstats]
  apply calculate_fix_statistics_bounds
  rw [auto_fixer_fix_content_eq_foldl, initAcc_of_identity content fp hlinter]
  have hlen := foldl_fixStep_length
    ((issues.filter (fun i => i.auto_fixable)).filter (fun i => i.auto_fixable))
    (content, [])
  have hfl : ((issues.filter (fun i => i.auto_fixable)).filter
      (fun i => i.auto_fixable)).length ≤ issues.length :=
    le_trans (List.length_filter_le _ _) (List.length_filter_le _ _)
  simp only [List.length_nil] at hlen
  omega

/-- A fixture for the C2 counterexample: one auto-fixable issue; the
content also contains a `console.log` call that the linter pass strips. -/
def completionFixIssue : CodeIssue :=
  { rule_id := "ts-prefer-const", description := "d", severity := "warning",
    line_number := 1, auto_fixable := true }

/-- C2 counterexample: one issue, but two `applied_fixes` entries (the
linter entry plus the pattern fix), so the completion percentage is
200, outside [0, 100]. -/
theorem completion_percentage_counterexample :
    (one_click_fix "console.log(1);\nlet x = 1;".toList "f.ts"
        [completionFixIssue]).fix_statistics.completion_percentage = 200
    ∧ ¬ (0 ≤ (one_click_fix "console.log(1);\nlet x = 1;".toList "f.ts"
          [completionFixIssue]).fix_statistics.completion_percentage
        ∧ (one_click_fix "console.log(1);\nlet x = 1;".toList "f.ts"
          [completionFixIssue]).fix_statistics.completion_percentage ≤ 100) := by
  have h : (one_click_fix "console.log(1);\nlet x = 1;".toList "f.ts"
        [completionFixIssue]).fix_statistics.completion_percentage
      = ((2 : ℕ) : ℚ) / ((1 : ℕ) : ℚ) * 100 := rfl
  constructor
  · rw [h]; norm_num
  · intro hc
    have h2 := hc.2
    rw [h] at h2
    norm_num at h2

theorem completion_percentage_bounds_witness :
    0 ≤ (one_click_fix "let a = 1;".toList "w.ts"
        [completionFixIssue]).fix_statistics.completion_percentage
    ∧ (one_click_fix "let a = 1;".toList "w.ts"
        [completionFixIssue]).fix_statistics.completion_percentage ≤ 100 :=
  completion_percentage_bounds "let a = 1;".toList "w.ts" [completionFixIssue] (by decide)

/-! ### C3: identity on issue-free content -/

/-- C3 (amended): on content the linter pass leaves unchanged,
`one_click_fix` with an empty issue list changes nothing. -/
theorem one_click_fix_identity_on_clean (content : List Char) (fp : String)
    (hlinter : custom_linter_fix content = content) :
    (one_click_fix content fp []).content_changed = false
    ∧ (one_click_fix content fp []).fixed_content = content := by
  have hfix : auto_fixer_fix_content content fp
      (([] : List CodeIssue).filter (fun i => i.auto_fixable)) = (content, []) := by
    rw [auto_fixer_fix_content_eq_foldl, initAcc_of_identity content fp hlinter]
    rfl
  have hchanged : (one_click_fix content fp []).content_changed
      = ((auto_fixer_fix_content content fp
          (([] : List CodeIssue).filter (fun i => i.auto_fixable))).1 != content) := rfl
  have hcontent : (one_click_fix content fp []).fixed_content
      = (auto_fixer_fix_content content fp
          (([] : List CodeIssue).filter (fun i => i.auto_fixable))).1 := rfl
  rw [hchanged, hcontent, hfix]
  exact ⟨bne_self_eq_false content, rfl⟩

/-- C3 counterexample: content whose only `console.log` line is
stripped by the linter pass is changed by `one_click_fix` even with an
empty issue list. -/
theorem one_click_fix_clean_input_counterexample :
    (one_click_fix "console.log(1);".toList "f.ts" []).content_changed = true
    ∧ (one_click_fix "console.log(1);".toList "f.ts" []).fixed_content
        ≠ "console.log(1);".toList :=
  ⟨by decide, by decide⟩

theorem one_click_fix_identity_on_clean_witness :
    (one_click_fix "let a = 1;".toList "w.ts" []).content_changed = false
    ∧ (one_click_fix "let a = 1;".toList "w.ts" []).fixed_content = "let a = 1;".toList :=
  one_click_fix_identity_on_clean "let a = 1;".toList "w.ts" (by decide)

/-! ### C4: auto-fix conservativeness -/

/-- C4 (amended): every `applied_fixes` entry that carries a rule id
(every pattern fix; the linter entry carries none) got it from an input
issue with `auto_fixable = true`. -/
theorem applied_fix_rule_from_auto_fixable (content : List Char) (fp : String)
    (issues : List CodeIssue) (f : AppliedFix)
    (hf : f ∈ (one_click_fix content fp issues).applied_fixes)
    (hrid : f.rule_id ≠ none) :
    ∃ i ∈ issues, i.auto_fixable = true ∧ f.rule_id = some i.rule_id := by
  have heq : (one_click_fix content fp issues).applied_fixes
      = (((issues.filter (fun i => i.auto_fixable)).filter
          (fun i => i.auto_fixable)).foldl fixStep (initAcc content fp)).2 := rfl
  rw [heq] at hf
  rcases mem_foldl_fixStep _ _ f hf with h | ⟨i, hi, d, hd⟩
  · exfalso
    apply hrid
    unfold initAcc at h
    by_cases hid : linter_manager_fix content fp = content
    · rw [if_pos hid] at h
      exact absurd h (List.not_mem_nil f)
    · rw [if_neg hid] at h
      rcases List.mem_cons.mp h with h1 | h1
      · rw [h1]
        rfl
      · exact absurd h1 (List.not_mem_nil f)
  · have hfi := List.mem_filter.mp (List.mem_filter.mp hi).1
    refine ⟨i, hfi.1, by simpa using hfi.2, ?_⟩
    rw [hd]
    rfl

/-- C4 counterexample: with an empty issue list, the linter pass still
records an `applied_fixes` entry, so not every entry carries a rule id
traceable to an auto-fixable input issue. -/
theorem applied_fix_without_source_issue_counterexample :
    ¬ ∀ f ∈ (one_click_fix "console.log(2);".toList "g.ts"
        ([] : List CodeIssue)).applied_fixes,
      ∃ i ∈ ([] : List CodeIssue), i.auto_fixable = true ∧ f.rule_id = some i.rule_id := by
  intro h
  have hmem : linterFixEntry ∈ (one_click_fix "console.log(2);".toList "g.ts"
      ([] : List CodeIssue)).applied_fixes := by decide
  obtain ⟨i, hi, _⟩ := h linterFixEntry hmem
  exact absurd hi (List.not_mem_nil i)

/-- A fixture for the C4 witness. -/
def conservativenessIssue : CodeIssue :=
  { rule_id := "ts-prefer-const", description := "d", severity := "warning",
    line_number := 1, auto_fixable := true }

/-! ### C9: matcher lemmas -/

theorem sItemEnds_le (s : List Char) (it : SItem) (pos q : Nat)
    (hq : q ∈ sItemEnds s it pos) : pos ≤ q := by
  cases it with
  | lit c =>
    simp only [sItemEnds] at hq
    split at hq
    · exact absurd hq (List.not_mem_nil q)
    · split at hq
      · rw [List.mem_singleton] at hq
        omega
      · exact absurd hq (List.not_mem_nil q)
  | cls p =>
    simp only [sItemEnds] at hq
    split at hq
    · exact absurd hq (List.not_mem_nil q)
    · split at hq
      · rw [List.mem_singleton] at hq
        omega
      · exact absurd hq (List.not_mem_nil q)
  | star p =>
    simp only [sItemEnds, List.mem_map, List.mem_reverse, List.mem_range] at hq
    obtain ⟨k, _, rfl⟩ := hq
    omega
  | plus p =>
    simp only [sItemEnds, List.mem_map, List.mem_reverse, List.mem_range] at hq
    obtain ⟨k, _, rfl⟩ := hq
    omega
  | opt p =>
    simp only [sItemEnds] at hq
    split at hq
    · rw [List.mem_singleton] at hq
      omega
    · split at hq
      · rcases List.mem_cons.mp hq with h | h
        · omega
        · rw [List.mem_singleton] at h
          omega
      · rw [List.mem_singleton] at hq
        omega

theorem matchSimples_le (s : List Char) (items : List SItem) (pos q : Nat)
    (hq : q ∈ matchSimples s items pos) : pos ≤ q := by
  induction items generalizing pos with
  | nil =>
    rw [matchSimples, List.mem_singleton] at hq
    omega
  | cons it rest ih =>
    rw [matchSimples, List.mem_flatMap] at hq
    obtain ⟨p, hp, hq2⟩ := hq
    exact le_trans (sItemEnds_le s it pos p hp) (ih p hq2)

theorem drop_subset_drop (s : List Char) (pos q : Nat) (h : pos ≤ q) :
    s.drop q ⊆ s.drop pos := by
  have heq : s.drop q = (s.drop pos).drop (q - pos) := by
    rw [List.drop_drop]
    congr 1
    omega
  rw [heq]
  exact List.drop_subset _ _

theorem mem_extractSpan (s : List Char) (a b : Nat) (c : Char)
    (h : c ∈ extractSpan s a b) : c ∈ s := by
  unfold extractSpan at h
  exact List.drop_subset _ _ (List.take_subset _ _ h)

/-- Every captured group of a match is made of characters of the
searched string. -/
theorem matchRItems_groups_subset (items : List RItem) (s : List Char)
    (prev : Option Char) (pos e : Nat) (gs : Groups)
    (h : (e, gs) ∈ matchRItems s prev items pos) :
    ∀ g ∈ gs, ∀ c ∈ g.2, c ∈ s := by
  induction items generalizing pos e gs with
  | nil =>
    rw [matchRItems, List.mem_singleton] at h
    intro g hg
    rw [(Prod.mk.injEq _ _ _ _).mp h |>.2] at hg
    exact absurd hg (List.not_mem_nil g)
  | cons it rest ih =>
    cases it with
    | one si =>
      rw [matchRItems, List.mem_flatMap] at h
      obtain ⟨q, _, h2⟩ := h
      exact ih q e gs h2
    | grp i sub =>
      rw [matchRItems, List.mem_flatMap] at h
      obtain ⟨q, _, h2⟩ := h
      rw [List.mem_map] at h2
      obtain ⟨r, hr, hr2⟩ := h2
      intro g hg c hc
      have hgs : gs = (i, extractSpan s pos q) :: r.2 :=
        ((Prod.mk.injEq _ _ _ _).mp hr2.symm).2
      rw [hgs] at hg
      rcases List.mem_cons.mp hg with h3 | h3
      · rw [h3] at hc
        exact mem_extractSpan s pos q c hc
      · exact ih q r.1 r.2 (by rw [← Prod.mk.eta (p := r)] at hr; exact hr) g h3 c hc
    | alt i alts =>
      rw [matchRItems, List.mem_flatMap] at h
      obtain ⟨w, hw, h2⟩ := h
      split at h2
      · rename_i hstart
        rw [List.mem_map] at h2
        obtain ⟨r, hr, hr2⟩ := h2
        intro g hg c hc
        have hgs : gs = (i, w) :: r.2 :=
          ((Prod.mk.injEq _ _ _ _).mp hr2.symm).2
        rw [hgs] at hg
        rcases List.mem_cons.mp hg with h3 | h3
        · rw [h3] at hc
          have hpre : w.IsPrefix (s.drop (pos + w.length - w.length)) := by
            have := List.isPrefixOf_iff_prefix.mp hstart
            simpa using this
          apply List.drop_subset (pos + w.length - w.length) s
          exact hpre.subset hc
        · exact ih (pos + w.length) r.1 r.2
            (by rw [← Prod.mk.eta (p := r)] at hr; exact hr) g h3 c hc
      · exact absurd h2 (List.not_mem_nil _)
    | wb =>
      rw [matchRItems] at h
      split at h
      · exact ih pos e gs h
      · exact absurd h (List.not_mem_nil _)

theorem searchRec_groups_subset (s : List Char) (prev : Option Char)
    (items : List RItem) (pos fuel st en : Nat) (gs : Groups)
    (h : searchRec s prev items pos fuel = some (st, en, gs)) :
    ∀ g ∈ gs, ∀ c ∈ g.2, c ∈ s := by
  induction fuel generalizing pos with
  | zero =>
    rw [searchRec] at h
    split at h
    · rename_i e gs' tail heq
      injection h with h2
      have h3 := (Prod.mk.injEq _ _ _ _).mp h2
      have h4 := (Prod.mk.injEq _ _ _ _).mp h3.2
      exact h4.2 ▸ matchRItems_groups_subset items s prev pos e gs'
        (heq ▸ List.mem_cons_self _ _)
    · exact absurd h (by simp)
  | succ fuel ih =>
    rw [searchRec] at h
    split at h
    · rename_i e gs' tail heq
      injection h with h2
      have h3 := (Prod.mk.injEq _ _ _ _).mp h2
      have h4 := (Prod.mk.injEq _ _ _ _).mp h3.2
      exact h4.2 ▸ matchRItems_groups_subset items s prev pos e gs'
        (heq ▸ List.mem_cons_self _ _)
    · split at h
      · exact ih (pos + 1) h
      · exact absurd h (by simp)

theorem research_groups_subset (items : List RItem) (prev : Option Char)
    (s : List Char) (st en : Nat) (gs : Groups)
    (h : research items prev s = some (st, en, gs)) :
    ∀ g ∈ gs, ∀ c ∈ g.2, c ∈ s :=
  searchRec_groups_subset s prev items 0 s.length st en gs h

theorem mem_lookupGroup (gs : Groups) (i : Nat) (c : Char)
    (h : c ∈ lookupGroup gs i) : ∃ g ∈ gs, c ∈ g.2 := by
  unfold lookupGroup at h
  split at h
  · rename_i g heq
    exact ⟨g, List.mem_of_find?_eq_some heq, h⟩
  · exact absurd h (List.not_mem_nil c)

/-- A mandatory literal item can only match if its character occurs in
the remaining input. -/
theorem matchRItems_lit_mem (items : List RItem) (s : List Char)
    (prev : Option Char) (pos e : Nat) (gs : Groups) (c : Char)
    (h : (e, gs) ∈ matchRItems s prev items pos)
    (hc : RItem.one (SItem.lit c) ∈ items) : c ∈ s.drop pos := by
  induction items generalizing pos e gs with
  | nil => exact absurd hc (List.not_mem_nil _)
  | cons it rest ih =>
    rcases List.mem_cons.mp hc with hh | hh
    · rw [← hh] at h
      rw [matchRItems, List.mem_flatMap] at h
      obtain ⟨q, hq, _⟩ := h
      simp only [sItemEnds] at hq
      split at hq
      · exact absurd hq (List.not_mem_nil q)
      · rename_i d tail heq
        split at hq
        · rename_i hd
          rw [heq, hd]
          exact List.mem_cons_self _ _
        · exact absurd hq (List.not_mem_nil q)
    · cases it with
      | one si =>
        rw [matchRItems, List.mem_flatMap] at h
        obtain ⟨q, hq, h2⟩ := h
        exact drop_subset_drop s pos q (sItemEnds_le s si pos q hq) (ih q e gs h2 hh)
      | grp i sub =>
        rw [matchRItems, List.mem_flatMap] at h
        obtain ⟨q, hq, h2⟩ := h
        rw [List.mem_map] at h2
        obtain ⟨r, hr, _⟩ := h2
        exact drop_subset_drop s pos q (matchSimples_le s sub pos q hq)
          (ih q r.1 r.2 (by rw [← Prod.mk.eta (p := r)] at hr; exact hr) hh)
      | alt i alts =>
        rw [matchRItems, List.mem_flatMap] at h
        obtain ⟨w, _, h2⟩ := h
        split at h2
        · rw [List.mem_map] at h2
          obtain ⟨r, hr, _⟩ := h2
          exact drop_subset_drop s pos (pos + w.length) (Nat.le_add_right _ _)
            (ih (pos + w.length) r.1 r.2
              (by rw [← Prod.mk.eta (p := r)] at hr; exact hr) hh)
        · exact absurd h2 (List.not_mem_nil _)
      | wb =>
        rw [matchRItems] at h
        split at h
        · exact ih pos e gs h hh
        · exact absurd h (List.not_mem_nil _)

theorem searchRec_lit_mem (s : List Char) (prev : Option Char)
    (items : List RItem) (pos fuel st en : Nat) (gs : Groups) (c : Char)
    (h : searchRec s prev items pos fuel = some (st, en, gs))
    (hc : RItem.one (SItem.lit c) ∈ items) : c ∈ s := by
  induction fuel generalizing pos with
  | zero =>
    rw [searchRec] at h
    split at h
    · rename_i e gs' tail heq
      exact List.drop_subset pos s
        (matchRItems_lit_mem items s prev pos e gs' c
          (heq ▸ List.mem_cons_self _ _) hc)
    · exact absurd h (by simp)
  | succ fuel ih =>
    rw [searchRec] at h
    split at h
    · rename_i e gs' tail heq
      exact List.drop_subset pos s
        (matchRItems_lit_mem items s prev pos e gs' c
          (heq ▸ List.mem_cons_self _ _) hc)
    · split at h
      · exact ih (pos + 1) h
      · exact absurd h (by simp)

theorem research_lit_mem (items : List RItem) (prev : Option Char)
    (s : List Char) (st en : Nat) (gs : Groups) (c : Char)
    (h : research items prev s = some (st, en, gs))
    (hc : RItem.one (SItem.lit c) ∈ items) : c ∈ s :=
  searchRec_lit_mem s prev items 0 s.length st en gs c h hc

/-- Characters of an expanded template come from its literals or from
the captured groups. -/
theorem mem_expandTmpl (tmpl : List TItem) (gs : Groups) (c : Char)
    (h : c ∈ expandTmpl tmpl gs) :
    TItem.lit c ∈ tmpl ∨ ∃ g ∈ gs, c ∈ g.2 := by
  unfold expandTmpl at h
  rw [List.mem_flatMap] at h
  obtain ⟨t, ht, hc⟩ := h
  cases t with
  | lit c2 =>
    rw [List.mem_singleton] at hc
    exact Or.inl (hc ▸ ht)
  | ref i =>
    exact Or.inr (mem_lookupGroup gs i c hc)

/-- Characters of a global substitution's output come from the input or
from the template's literals. -/
theorem mem_subAllRec (items : List RItem) (tmpl : List TItem)
    (prev : Option Char) (fuel : Nat) (s : List Char) (c : Char)
    (h : c ∈ subAllRec items tmpl prev fuel s) :
    c ∈ s ∨ TItem.lit c ∈ tmpl := by
  induction fuel generalizing prev s with
  | zero => exact Or.inl h
  | succ fuel ih =>
    rw [subAllRec] at h
    split at h
    · exact Or.inl h
    · rename_i st en gs hres
      have hexp : ∀ c2 ∈ expandTmpl tmpl gs, c2 ∈ s ∨ TItem.lit c2 ∈ tmpl := by
        intro c2 hc2
        rcases mem_expandTmpl tmpl gs c2 hc2 with h2 | ⟨g, hg, hcg⟩
        · exact Or.inr h2
        · exact Or.inl (research_groups_subset items prev s st en gs hres g hg c2 hcg)
      split at h
      · rcases List.mem_append.mp h with h1 | h1
        · rcases List.mem_append.mp h1 with h2 | h2
          · exact Or.inl (List.take_subset st s h2)
          · exact hexp c h2
        · rcases ih _ _ h1 with h3 | h3
          · exact Or.inl (List.drop_subset en s h3)
          · exact Or.inr h3
      · split at h
        · rcases List.mem_append.mp h with h1 | h1
          · exact Or.inl (List.take_subset st s h1)
          · exact hexp c h1
        · rename_i d rest heq
          rcases List.mem_append.mp h with h1 | h1
          · rcases List.mem_append.mp h1 with h2 | h2
            · exact Or.inl (List.take_subset st s h2)
            · exact hexp c h2
          · rcases List.mem_cons.mp h1 with h3 | h3
            · refine Or.inl (List.drop_subset st s ?_)
              rw [heq, h3]
              exact List.mem_cons_self _ _
            · rcases ih _ _ h3 with h4 | h4
              · refine Or.inl (List.drop_subset st s ?_)
                rw [heq]
                exact List.mem_cons_of_mem d h4
              · exact Or.inr h4

theorem mem_pySub (items : List RItem) (tmpl : List TItem) (s : List Char)
    (c : Char) (h : c ∈ pySub items tmpl s) : c ∈ s ∨ TItem.lit c ∈ tmpl :=
  mem_subAllRec items tmpl none (s.length + 1) s c h

theorem mem_pyReplaceRec (old new : List Char) (fuel : Nat) (s : List Char)
    (c : Char) (h : c ∈ pyReplaceRec old new fuel s) : c ∈ s ∨ c ∈ new := by
  induction fuel generalizing s with
  | zero => exact Or.inl h
  | succ fuel ih =>
    cases s with
    | nil =>
      rw [pyReplaceRec] at h
      exact absurd h (List.not_mem_nil c)
    | cons d rest =>
      rw [pyReplaceRec] at h
      split at h
      · rcases List.mem_append.mp h with h1 | h1
        · exact Or.inr h1
        · rcases ih _ h1 with h2 | h2
          · exact Or.inl (List.drop_subset _ _ h2)
          · exact Or.inr h2
      · rcases List.mem_cons.mp h with h1 | h1
        · exact Or.inl (h1 ▸ List.mem_cons_self d rest)
        · rcases ih rest h1 with h2 | h2
          · exact Or.inl (List.mem_cons_of_mem d h2)
          · exact Or.inr h2

theorem mem_pyReplace (s old new : List Char) (c : Char)
    (h : c ∈ pyReplace s old new) : c ∈ s ∨ c ∈ new :=
  mem_pyReplaceRec old new (s.length + 1) s c h

theorem pyUpperChar_ne_newline (c : Char) (h : c ≠ '\n') : pyUpperChar c ≠ '\n' := by
  unfold pyUpperChar
  split
  · rename_i hrange
    unfold isAsciiLower at hrange
    rw [Bool.and_eq_true, decide_eq_true_eq, decide_eq_true_eq] at hrange
    intro heq
    have h2 : c.toNat ≤ ('z' : Char).toNat := hrange.2
    have hval : (c.toNat - 32).isValidChar := by
      left
      show c.toNat - 32 < 55296
      have h3 : ('z' : Char).toNat = 122 := rfl
      omega
    have htn : (Char.ofNat (c.toNat - 32)).toNat = c.toNat - 32 := by
      rw [Char.ofNat, dif_pos hval]
      rfl
    have h10 : (Char.ofNat (c.toNat - 32)).toNat = ('\n' : Char).toNat := by rw [heq]
    rw [htn] at h10
    have h1 : ('a' : Char).toNat ≤ c.toNat := hrange.1
    have ha : ('a' : Char).toNat = 97 := rfl
    have hn : ('\n' : Char).toNat = 10 := rfl
    omega
  · exact h

theorem pyLowerChar_ne_newline (c : Char) (h : c ≠ '\n') : pyLowerChar c ≠ '\n' := by
  unfold pyLowerChar
  split
  · rename_i hrange
    unfold isAsciiUpper at hrange
    rw [Bool.and_eq_true, decide_eq_true_eq, decide_eq_true_eq] at hrange
    intro heq
    have h2 : c.toNat ≤ ('Z' : Char).toNat := hrange.2
    have hval : (c.toNat + 32).isValidChar := by
      left
      show c.toNat + 32 < 55296
      have h3 : ('Z' : Char).toNat = 90 := rfl
      omega
    have htn : (Char.ofNat (c.toNat + 32)).toNat = c.toNat + 32 := by
      rw [Char.ofNat, dif_pos hval]
      rfl
    have h10 : (Char.ofNat (c.toNat + 32)).toNat = ('\n' : Char).toNat := by rw [heq]
    rw [htn] at h10
    have h1 : ('A' : Char).toNat ≤ c.toNat := hrange.1
    have ha : ('A' : Char).toNat = 65 := rfl
    have hn : ('\n' : Char).toNat = 10 := rfl
    omega
  · exact h

def tmplHasNl (tmpl : List TItem) : Bool :=
  tmpl.any (fun t =>
    match t with
    | .lit c => c == '\n'
    | .ref _ => false)

theorem pySub_no_newline (items : List RItem) (tmpl : List TItem) (s : List Char)
    (hs : '\n' ∉ s) (ht : tmplHasNl tmpl = false) : '\n' ∉ pySub items tmpl s := by
  intro h
  rcases mem_pySub items tmpl s '\n' h with h1 | h1
  · exact hs h1
  · unfold tmplHasNl at ht
    rw [List.any_eq_false] at ht
    have h2 := ht _ h1
    simp at h2

theorem map_pyLower_no_newline (l : List Char) (hl : '\n' ∉ l) :
    '\n' ∉ l.map pyLowerChar := by
  intro h
  rw [List.mem_map] at h
  obtain ⟨c, hc, hceq⟩ := h
  exact pyLowerChar_ne_newline c (fun he => hl (he ▸ hc)) hceq

theorem map_pyUpper_no_newline (l : List Char) (hl : '\n' ∉ l) :
    '\n' ∉ l.map pyUpperChar := by
  intro h
  rw [List.mem_map] at h
  obtain ⟨c, hc, hceq⟩ := h
  exact pyUpperChar_ne_newline c (fun he => hl (he ▸ hc)) hceq

theorem pyCapitalize_no_newline (l : List Char) (hl : '\n' ∉ l) :
    '\n' ∉ pyCapitalize l := by
  cases l with
  | nil => simp [pyCapitalize]
  | cons c cs =>
    intro h
    rcases List.mem_cons.mp h with h1 | h1
    · exact pyUpperChar_ne_newline c
        (fun he => hl (he ▸ List.mem_cons_self c cs)) h1.symm
    · exact map_pyLower_no_newline cs
        (fun hm => hl (List.mem_cons_of_mem c hm)) h1

/-- Captured groups of a successful search on a newline-free line are
newline-free. -/
theorem lookupGroup_no_newline (items : List RItem) (line : List Char)
    (st en : Nat) (gs : Groups) (i : Nat) (hline : '\n' ∉ line)
    (hres : research items none line = some (st, en, gs)) :
    '\n' ∉ lookupGroup gs i := by
  intro h
  obtain ⟨g, hg, hcg⟩ := mem_lookupGroup gs i '\n' h
  exact hline (research_groups_subset items none line st en gs hres g hg '\n' hcg)

/-- Frame property of a successful pattern fix, given that the computed
replacement line contains no newline. -/
theorem apply_pattern_fix_frame_aux (pf : PatternFix) (content : List Char)
    (issue : CodeIssue) (fixed : List Char) (d : String)
    (hln : 1 ≤ issue.line_number)
    (hsucc : apply_pattern_fix pf content issue = .success fixed d)
    (hnl : ∀ st en gs,
      research pf.pattern none (targetLine content issue) = some (st, en, gs) →
      '\n' ∉ ruleNewLine pf (targetLine content issue) st en gs) :
    (splitNl fixed).length = (splitNl content).length
    ∧ ∀ j, j ≠ issue.line_number - 1 →
        (splitNl fixed).getD j [] = (splitNl content).getD j [] := by
  unfold apply_pattern_fix at hsucc
  by_cases hguard : issue.line_number ≤ (splitNl content).length
  · rw [if_pos hguard] at hsucc
    split at hsucc
    · exact absurd hsucc (by simp)
    · rename_i st en gs hres
      split at hsucc
      · injection hsucc with h1 h2
        have hnew : '\n' ∉ ruleNewLine pf (targetLine content issue) st en gs :=
          hnl st en gs hres
        have hidx : issue.line_number - 1 < (splitNl content).length := by omega
        have hnlAll : ∀ l ∈ (splitNl content).set (issue.line_number - 1)
            (ruleNewLine pf (targetLine content issue) st en gs), '\n' ∉ l := by
          intro l hl
          rcases List.mem_or_eq_of_mem_set hl with hm | hm
          · exact mem_splitNl_no_newline content l hm
          · rw [hm]
            exact hnew
        have hnonnil : (splitNl content).set (issue.line_number - 1)
            (ruleNewLine pf (targetLine content issue) st en gs) ≠ [] := by
          apply List.ne_nil_of_length_pos
          rw [List.length_set]
          omega
        have hsplit : splitNl fixed
            = (splitNl content).set (issue.line_number - 1)
                (ruleNewLine pf (targetLine content issue) st en gs) := by
          rw [← h1]
          exact splitNl_joinNl _ hnonnil hnlAll
        constructor
        · rw [hsplit, List.length_set]
        · intro j hj
          rw [hsplit, List.getD_eq_getElem?_getD, List.getD_eq_getElem?_getD,
            List.getElem?_set_ne (fun he => hj he.symm)]
      · exact absurd hsucc (by simp)
  · rw [if_neg hguard] at hsucc
    exact absurd hsucc (by simp)

/-- C9: whenever a rule-specific pattern fix from the fix-pattern table
succeeds (its pattern matched the target line and its condition, if
any, passed), the returned content has the same number of
newline-split lines and agrees with the input on every line other than
the issue's. -/
theorem pattern_fix_frame (entry : String × PatternFix)
    (hentry : entry ∈ fixPatterns) (content : List Char) (issue : CodeIssue)
    (fixed : List Char) (d : String) (hln : 1 ≤ issue.line_number)
    (hsucc : apply_pattern_fix entry.2 content issue = .success fixed d) :
    (splitNl fixed).length = (splitNl content).length
    ∧ ∀ j, j ≠ issue.line_number - 1 →
        (splitNl fixed).getD j [] = (splitNl content).getD j [] := by
  have hline : '\n' ∉ targetLine content issue := by
    unfold targetLine
    rcases lt_or_ge (issue.line_number - 1) ((splitNl content).length) with hidx | hidx
    · have hmem : (splitNl content).getD (issue.line_number - 1) [] ∈ splitNl content := by
        rw [List.getD_eq_getElem?_getD, List.getElem?_eq_getElem hidx]
        exact List.getElem_mem _
      exact mem_splitNl_no_newline content _ hmem
    · rw [List.getD_eq_getElem?_getD, List.getElem?_eq_none (by omega)]
      simp
  apply apply_pattern_fix_frame_aux entry.2 content issue fixed d hln hsucc
  intro st en gs hres
  simp only [fixPatterns, List.mem_cons, List.not_mem_nil, or_false] at hentry
  rcases hentry with rfl | rfl | rfl | rfl | rfl | rfl | rfl | rfl | rfl | rfl
  · exact pySub_no_newline _ _ _ hline (by decide)
  · exact pySub_no_newline _ _ _ hline (by decide)
  · exfalso
    have hmem : RItem.one (SItem.lit '\n') ∈ addSemicolonPat :=
      List.mem_cons_of_mem _ (List.mem_cons_of_mem _ (List.mem_cons_self _ _))
    exact hline (research_lit_mem _ _ _ _ _ _ '\n' hres hmem)
  · show '\n' ∉ lookupGroup gs 1 ++ pyCapitalize (lookupGroup gs 2)
    intro h
    rcases List.mem_append.mp h with h1 | h1
    · exact lookupGroup_no_newline _ _ _ _ _ 1 hline hres h1
    · exact pyCapitalize_no_newline _ (lookupGroup_no_newline _ _ _ _ _ 2 hline hres) h1
  · show '\n' ∉ "const ".toList ++ toUpperSnake (lookupGroup gs 1) ++ " =".toList
    intro h
    rcases List.mem_append.mp h with h1 | h1
    · rcases List.mem_append.mp h1 with h2 | h2
      · exact absurd h2 (by decide)
      · have hg1 : '\n' ∉ lookupGroup gs 1 :=
          lookupGroup_no_newline _ _ _ _ _ 1 hline hres
        have hsub : '\n' ∉ pySub camelSplitPat camelSplitTmpl (lookupGroup gs 1) :=
          pySub_no_newline _ _ _ hg1 (by decide)
        exact map_pyUpper_no_newline _ hsub h2
    · exact absurd h1 (by decide)
  · show '\n' ∉ removeUnusedFromImport (extractSpan (targetLine content issue) st en)
      (lookupGroup gs 1)
    intro h
    unfold removeUnusedFromImport at h
    rcases mem_pyReplace _ _ _ '\n' h with h1 | h1
    · rcases mem_pyReplace _ _ _ '\n' h1 with h2 | h2
      · exact hline (mem_extractSpan _ st en '\n' h2)
      · exact absurd h2 (List.not_mem_nil _)
    · exact absurd h1 (List.not_mem_nil _)
  · exact pySub_no_newline _ _ _ hline (by decide)
  · exact pySub_no_newline _ _ _ hline (by decide)
  · exact pySub_no_newline _ _ _ hline (by decide)
  · exact pySub_no_newline _ _ _ hline (by decide)

/-- The `ts-prefer-const` table entry (the head of `fixPatterns`). -/
def preferConstEntry : String × PatternFix :=
  ("ts-prefer-const",
   { pattern := preferConstFixPat, repl := .tmpl preferConstTmpl,
     condition := some (fun m content => isNeverReassigned (lookupGroup m.groups 1) content) })

theorem preferConstEntry_mem : preferConstEntry ∈ fixPatterns :=
  List.mem_cons_self _ _

/-- A fixture for the C9 witness: a `ts-prefer-const` issue on line 1
of a two-line content. -/
def frameIssue : CodeIssue :=
  { rule_id := "ts-prefer-const", description := "d", severity := "warning",
    line_number := 1, auto_fixable := true }

theorem pattern_fix_frame_witness :
    (splitNl "const a = 1;\nx".toList).length = (splitNl "let a = 1;\nx".toList).length :=
  (pattern_fix_frame preferConstEntry preferConstEntry_mem "let a = 1;\nx".toList
    frameIssue "const a = 1;\nx".toList "Applied pattern fix for ts-prefer-const"
    (by decide) (by decide)).1

theorem applied_fix_rule_from_auto_fixable_witness :
    ∃ i ∈ [conservativenessIssue], i.auto_fixable = true
      ∧ (patternFixEntry conservativenessIssue
          "Applied pattern fix for ts-prefer-const").rule_id = some i.rule_id :=
  applied_fix_rule_from_auto_fixable "let y = 2;".toList "g.ts" [conservativenessIssue]
    (patternFixEntry conservativenessIssue "Applied pattern fix for ts-prefer-const")
    (by decide) (by decide)

end CodeReview
